import Mathlib

/-!
Verification of the Agentic Job Search agents.

The agents are Python classes whose only logic is string scraping of
free-text model replies plus arithmetic on small scores.  We embed that
logic shallowly: texts are `String` (chars as `List Char`), the external
model/search calls are `Except String _` inputs, Python `int` scores are
`Int`/`Nat`, and each `re` pattern used by the source is realised as a
bespoke scanner whose deterministic structure is justified where the
pattern admits no backtracking ambiguity.  Python `str.lower`/`str.upper`
are modelled on ASCII letters, which covers every literal the source
compares against.
-/

set_option maxRecDepth 10000

/-! ### Python string primitives -/

/-- The characters Python `str.strip()` and `\s` treat as whitespace. -/
def pyWsChar (c : Char) : Bool :=
  c == ' ' || c == '\t' || c == '\n' || c == '\r' || c == '\x0b' || c == '\x0c'

/-- ASCII model of Python `str.lower` on one character. -/
def pyLowerChar (c : Char) : Char :=
  if 'A' ≤ c && c ≤ 'Z' then Char.ofNat (c.toNat + 32) else c

/-- ASCII model of Python `str.upper` on one character. -/
def pyUpperChar (c : Char) : Char :=
  if 'a' ≤ c && c ≤ 'z' then Char.ofNat (c.toNat - 32) else c

def pyLower (s : List Char) : List Char := s.map pyLowerChar

def pyUpper (s : List Char) : List Char := s.map pyUpperChar

/-- Does `p` start the list `l`?  (Python `str.startswith`.) -/
def hasPref : List Char → List Char → Bool
  | [], _ => true
  | _ :: _, [] => false
  | a :: as, b :: bs => a == b && hasPref as bs

/-- Does `n` occur contiguously in `l`?  (Python `n in l`.) -/
def hasSub (n : List Char) : List Char → Bool
  | [] => n.isEmpty
  | c :: tl => hasPref n (c :: tl) || hasSub n tl

/-- Python `needle in haystack` on strings. -/
def strContains (haystack needle : String) : Bool := hasSub needle.data haystack.data

/-- Python `str.strip()` (no argument: strips whitespace on both sides). -/
def pyStrip (s : List Char) : List Char :=
  ((s.dropWhile pyWsChar).reverse.dropWhile pyWsChar).reverse

/-- Python `str.lstrip(set)`: drop leading characters belonging to `set`. -/
def pyLStripSet (cs : List Char) (s : List Char) : List Char :=
  s.dropWhile (fun c => cs.contains c)

/-- Split a character list at every occurrence of `sep` (Python `str.split(sep)`,
single-character separator; yields `[[]]` on the empty string like Python). -/
def splitOnCh (sep : Char) : List Char → List (List Char)
  | [] => [[]]
  | c :: tl =>
    let r := splitOnCh sep tl
    if c == sep then [] :: r
    else
      match r with
      | [] => [[c]]
      | x :: xs => (c :: x) :: xs

/-- Python `text.split('\n')`. -/
def pyLines (s : List Char) : List (List Char) := splitOnCh '\n' s

/-- Value of a digit string (Python `int` on a run of ASCII digits). -/
def natOfDigits (ds : List Char) : Nat := ds.foldl (fun a c => 10 * a + (c.toNat - 48)) 0

/-- Strip the literal `p` from the front of `l`, returning the rest. -/
def stripPref (p : List Char) : List Char → Option (List Char)
  | l =>
    match p, l with
    | [], rest => some rest
    | _ :: _, [] => none
    | a :: as, b :: bs => if a == b then stripPref as bs else none

/-- `re.search` driver: try the position matcher `f` at every start position
(including the end-of-string position) and return the first success. -/
def scanFirst {α : Type} (f : List Char → Option α) : List Char → Option α
  | [] => f []
  | c :: tl =>
    match f (c :: tl) with
    | some a => some a
    | none => scanFirst f tl

/-- `re.search` driver for matchers that need the preceding character
(for `\b` word boundaries); returns whether any position matches. -/
def scanPrevB (f : Option Char → List Char → Bool) : Option Char → List Char → Bool
  | prev, [] => f prev []
  | prev, c :: tl => f prev (c :: tl) || scanPrevB f (some c) tl

/-- Python `\w` (ASCII model). -/
def wordChar (c : Char) : Bool := c.isAlphanum || c == '_'

/-- A `\b` boundary holds before the current position (next char is a word char). -/
def bBefore : Option Char → Bool
  | none => true
  | some c => !wordChar c

/-- A `\b` boundary holds after a word char when the rest starts with a non-word char. -/
def bAfterOk : List Char → Bool
  | [] => true
  | c :: _ => !wordChar c

/-- `.*` driver: try `f` here and at every later position reachable without
crossing a newline (`.` does not match `\n` outside DOTALL). -/
def noNlScan (f : Option Char → List Char → Bool) : Option Char → List Char → Bool
  | prev, [] => f prev []
  | prev, c :: tl => f prev (c :: tl) || (!(c == '\n') && noNlScan f (some c) tl)

/-- After one `\s` character (`prev`), continue `\s+` (which may cross newlines)
or hand over to the `.*` scan. Together with `wsPlusScan` this realises the
`\s+.*` (and `\s+.*?`) fragments of the source's patterns. -/
def wsThenScan (f : Option Char → List Char → Bool) : Char → List Char → Bool
  | prev, [] => noNlScan f (some prev) []
  | prev, c :: tl =>
    noNlScan f (some prev) (c :: tl) || (pyWsChar c && wsThenScan f c tl)

/-- `\s+` followed by `.*` followed by the matcher `f`. -/
def wsPlusScan (f : Option Char → List Char → Bool) : List Char → Bool
  | [] => false
  | c :: tl => pyWsChar c && wsThenScan f c tl

/-- Python `sep.join(xs)`. -/
def joinSep (sep : String) : List String → String
  | [] => ""
  | [x] => x
  | x :: y :: tl => x ++ sep ++ joinSep sep (y :: tl)

/-- Deduplication keeping first occurrences; models `list(set(xs))` up to the
(unspecified) ordering of a Python set, which no claim depends on. -/
def dedupAux : List String → List String → List String
  | _, [] => []
  | seen, x :: tl =>
    if seen.contains x then dedupAux seen tl else x :: dedupAux (x :: seen) tl

def dedupFirst (l : List String) : List String := dedupAux [] l

/-- First maximal digit run of a list, as a number (`re.findall(r'\d+', l)[0]`). -/
def firstDigitRun : List Char → Option Nat
  | [] => none
  | c :: tl =>
    if c.isDigit then some (natOfDigits ((c :: tl).takeWhile Char.isDigit))
    else firstDigitRun tl

/-- Python `str.replace(pat, rep)` (all occurrences, left to right); the fuel
equals the input length, which suffices for every non-empty `pat`. -/
def replGo (pat rep : List Char) : Nat → List Char → List Char
  | 0, l => l
  | _ + 1, [] => []
  | fuel + 1, c :: tl =>
    match stripPref pat (c :: tl) with
    | some rest => rep ++ replGo pat rep fuel rest
    | none => c :: replGo pat rep fuel tl

def replAll (pat rep l : List Char) : List Char := replGo pat rep l.length l

/-! ### CareerPlannerAgent (src/agents/career_planner_agent.py) -/

/-- The three skill categories produced by `SkillAnalyzerAgent._parse_skills`;
every skills dictionary flowing through the agents has exactly these keys. -/
structure Skills where
  technical : List String
  soft : List String
  domain : List String
deriving DecidableEq

/-- `sum(len(skill_list) for skill_list in skills.values())`. -/
def totalSkills (sk : Skills) : Nat :=
  sk.technical.length + sk.soft.length + sk.domain.length

structure CareerPath where
  current_role : String
  target_role : String
  feasibility_score : Nat
  timeline_months : Nat
  milestones : List String
  pathway_description : String
  challenges : List String
deriving DecidableEq

/-- Matcher for `FEASIBILITY:\s*(\d+)/10` at one position of the lowered text
(the pattern carries `re.IGNORECASE`).  `\s*` and `\d+` are maximal-munch here:
a shorter whitespace run is followed by whitespace (not a digit) and a shorter
digit run is followed by a digit (not `/`), so no backtracking can succeed. -/
def feasAt1 (l : List Char) : Option Nat :=
  match stripPref "feasibility:".data l with
  | none => none
  | some r1 =>
    let r2 := r1.dropWhile pyWsChar
    let ds := r2.takeWhile Char.isDigit
    if ds.isEmpty then none
    else
      match stripPref "/10".data (r2.dropWhile Char.isDigit) with
      | none => none
      | some _ => some (natOfDigits ds)

def feasSearch1 (text : String) : Option Nat := scanFirst feasAt1 (pyLower text.data)

/-- Matcher for `(\d+)\s*(?:/|out of)\s*10` (IGNORECASE), first match of the
source's `re.findall`; same maximal-munch justification as `feasAt1`, and the
alternation is decided by the first character after the whitespace. -/
def feasAt2 (l : List Char) : Option Nat :=
  let ds := l.takeWhile Char.isDigit
  if ds.isEmpty then none
  else
    let r1 := (l.dropWhile Char.isDigit).dropWhile pyWsChar
    let r2 :=
      match r1 with
      | '/' :: tl => some tl
      | _ => stripPref "out of".data r1
    match r2 with
    | none => none
    | some r3 =>
      match stripPref "10".data (r3.dropWhile pyWsChar) with
      | none => none
      | some _ => some (natOfDigits ds)

def feasSearch2 (text : String) : Option Nat := scanFirst feasAt2 (pyLower text.data)

/-- Matcher for `feasibility[:\s]+(\d+)` (IGNORECASE). -/
def feasAt3 (l : List Char) : Option Nat :=
  match stripPref "feasibility".data l with
  | none => none
  | some r1 =>
    let isSep := fun c => c == ':' || pyWsChar c
    if (r1.takeWhile isSep).isEmpty then none
    else
      let ds := (r1.dropWhile isSep).takeWhile Char.isDigit
      if ds.isEmpty then none else some (natOfDigits ds)

def feasSearch3 (text : String) : Option Nat := scanFirst feasAt3 (pyLower text.data)

/-- Matcher for `(\d+)\s*(?:to\s*)?(\d+)?\s*months?` (IGNORECASE), groups of the
first match.  When the literal `to` is present the branch skipping it cannot
match (the position starts with `t`, which none of `\d`, `\s`, `month` accept),
so committing to it is exact; the optional second digit group is likewise
committed because dropping or shortening it leaves a digit where `\s*month`
must start. -/
def monthsAt (l : List Char) : Option (Nat × Option Nat) :=
  let d1 := l.takeWhile Char.isDigit
  if d1.isEmpty then none
  else
    let r1 := (l.dropWhile Char.isDigit).dropWhile pyWsChar
    let r2 :=
      match stripPref "to".data r1 with
      | some tl => tl.dropWhile pyWsChar
      | none => r1
    let d2 := r2.takeWhile Char.isDigit
    let r3 := (r2.dropWhile Char.isDigit).dropWhile pyWsChar
    match stripPref "month".data r3 with
    | none => none
    | some _ => some (natOfDigits d1, if d2.isEmpty then none else some (natOfDigits d2))

def monthsSearch (text : String) : Option (Nat × Option Nat) :=
  scanFirst monthsAt (pyLower text.data)

/-- Timeline extraction of `_parse_career_path`: only attempted when the word
`month` occurs; `int(months[0][1] if months[0][1] else months[0][0])`. -/
def timelineOf (text : String) : Nat :=
  if hasSub "month".data (pyLower text.data) then
    match monthsSearch text with
    | some (_, some b) => b
    | some (a, none) => a
    | none => 12
  else 12

/-- The milestone-line scanner of `_parse_career_path`; the dynamic
`str(len(milestones) + 1)` start check uses the running accumulator length. -/
def milestonesGo : List (List Char) → Bool → List String → List String
  | [], _, acc => acc
  | line :: rest, inMs, acc =>
    if hasSub "milestone".data (pyLower line) then milestonesGo rest true acc
    else
      let s := pyStrip line
      if inMs && (hasPref "-".data s || hasPref "•".data s
          || hasPref (Nat.repr (acc.length + 1)).data s) then
        let m := pyStrip (pyLStripSet "-•0123456789.".data s)
        if !m.isEmpty && m.length > 10 then milestonesGo rest inMs (acc ++ [String.mk m])
        else milestonesGo rest inMs acc
      else milestonesGo rest inMs acc

def milestonesOf (text : String) : List String :=
  let ms := milestonesGo (pyLines text.data) false []
  if ms.isEmpty then
    ["Build foundational skills", "Gain relevant experience", "Expand network",
     "Apply to target roles"]
  else ms

/-- `CareerPlannerAgent._extract_challenges`. -/
def challengesGo : List (List Char) → Bool → List String → List String
  | [], _, acc => acc
  | line :: rest, inCh, acc =>
    if hasSub "challenge".data (pyLower line) || hasSub "obstacle".data (pyLower line) then
      challengesGo rest true acc
    else
      let s := pyStrip line
      if inCh && (hasPref "-".data s || hasPref "•".data s) then
        let c := pyStrip (pyLStripSet "-•".data s)
        if !c.isEmpty then challengesGo rest inCh (acc ++ [String.mk c])
        else challengesGo rest inCh acc
      else challengesGo rest inCh acc

def extractChallenges (text : String) : List String :=
  let cs := challengesGo (pyLines text.data) false []
  if cs.isEmpty then ["Skill acquisition", "Market competition"] else cs.take 5

/-- The skill-count fallback estimate; this four-way conditional appears
verbatim both in `_parse_career_path` and in `_calculate_fallback_path`. -/
def skillCountFeasibility (sk : Skills) : Nat :=
  if totalSkills sk = 0 then 3
  else if totalSkills sk < 3 then 4
  else if totalSkills sk < 6 then 6
  else 7

/-- `CareerPlannerAgent._parse_career_path`. -/
def parseCareerPath (text current target : String) (skills : Skills) : CareerPath :=
  let feas :=
    match feasSearch1 text with
    | some v => v
    | none =>
      match feasSearch2 text with
      | some v => v
      | none =>
        match feasSearch3 text with
        | some v => v
        | none => skillCountFeasibility skills
  { current_role := current
    target_role := target
    feasibility_score := min 10 (max 1 feas)
    timeline_months := timelineOf text
    milestones := (milestonesOf text).take 6
    pathway_description := text
    challenges := extractChallenges text }

/-- `CareerPlannerAgent._calculate_fallback_path`. -/
def calculateFallbackPath (current target : String) (skills : Skills) : CareerPath :=
  { current_role := current
    target_role := target
    feasibility_score := skillCountFeasibility skills
    timeline_months := 12
    milestones := ["Gain required skills", "Build portfolio", "Network in target industry",
                   "Apply strategically"]
    pathway_description := "Standard career transition path"
    challenges := ["Skill acquisition", "Market competition", "Experience requirements"] }

/-- `CareerPlannerAgent.predict_career_path`: the model call is the
`Except`-valued input; the catch-all `except` is the `error` branch. -/
def predictCareerPath (llmResult : Except String String)
    (current target : String) (skills : Skills) : CareerPath :=
  match llmResult with
  | .ok resp => parseCareerPath resp current target skills
  | .error _ => calculateFallbackPath current target skills

/-! ### Bridge roles and networking strategy (same file) -/

/-- The partial dict `current_role` built by `_parse_bridge_roles`. -/
structure BridgeRole where
  role_title : Option String
  rationale : Option String
  skills_built : Option (List String)
  timeline_months : Option Nat
deriving DecidableEq

def emptyBridgeRole : BridgeRole := ⟨none, none, none, none⟩

/-- Python truthiness of the `current_role` dict. -/
def bridgeNonempty (r : BridgeRole) : Bool :=
  r.role_title.isSome || r.rationale.isSome || r.skills_built.isSome ||
    r.timeline_months.isSome

/-- `line.replace(label, '').strip()`. -/
def lineValue (label : String) (line : List Char) : String :=
  String.mk (pyStrip (replAll label.data [] line))

def bridgeGo : List (List Char) → List BridgeRole → BridgeRole → List BridgeRole
  | [], roles, cur =>
    if bridgeNonempty cur && cur.role_title.isSome then roles ++ [cur] else roles
  | rawLine :: rest, roles, cur =>
    let line := pyStrip rawLine
    if hasPref "ROLE:".data line then
      let roles' := if bridgeNonempty cur then roles ++ [cur] else roles
      bridgeGo rest roles' { emptyBridgeRole with role_title := some (lineValue "ROLE:" line) }
    else if hasPref "WHY:".data line then
      bridgeGo rest roles { cur with rationale := some (lineValue "WHY:" line) }
    else if hasPref "SKILLS:".data line then
      let st := pyStrip (replAll "SKILLS:".data [] line)
      bridgeGo rest roles
        { cur with skills_built := some ((splitOnCh ',' st).map (fun s => String.mk (pyStrip s))) }
    else if hasPref "TIMELINE:".data line then
      bridgeGo rest roles { cur with timeline_months := some ((firstDigitRun line).getD 12) }
    else if line == "---".data && bridgeNonempty cur then
      bridgeGo rest (roles ++ [cur]) emptyBridgeRole
    else bridgeGo rest roles cur

/-- `CareerPlannerAgent._parse_bridge_roles`. -/
def parseBridgeRoles (text : String) : List BridgeRole :=
  (bridgeGo (pyLines text.data) [] emptyBridgeRole).take 5

/-- `CareerPlannerAgent.recommend_bridge_roles`. -/
def recommendBridgeRoles (llmResult : Except String String)
    (current_role : String) : List BridgeRole :=
  match llmResult with
  | .ok resp => parseBridgeRoles resp
  | .error _ =>
    [{ role_title := some ("Senior " ++ current_role)
       rationale := some "Deepens expertise before transition"
       skills_built := some ["Advanced technical skills", "Leadership"]
       timeline_months := some 12 }]

structure NetworkingStrategy where
  target_contacts : List String
  events_communities : List String
  outreach_template : String
deriving DecidableEq

inductive NetSection where
  | contacts
  | events
  | outreach
deriving DecidableEq

def netGo : List (List Char) → Option NetSection → NetworkingStrategy → NetworkingStrategy
  | [], _, st => st
  | rawLine :: rest, sec, st =>
    let line := pyStrip rawLine
    let low := pyLower line
    if hasSub "target contact".data low || hasSub "who to contact".data low then
      netGo rest (some .contacts) st
    else if hasSub "event".data low || hasSub "communit".data low then
      netGo rest (some .events) st
    else if hasSub "template".data low || hasSub "message".data low then
      netGo rest (some .outreach) { st with outreach_template := "" }
    else if sec.isSome && (hasPref "-".data line || hasPref "•".data line) then
      -- the source appends only for the two list-valued sections; a bullet
      -- under the outreach section is dropped
      let item := String.mk (pyStrip (pyLStripSet "-•".data line))
      match sec with
      | some .contacts => netGo rest sec { st with target_contacts := st.target_contacts ++ [item] }
      | some .events => netGo rest sec { st with events_communities := st.events_communities ++ [item] }
      | _ => netGo rest sec st
    else if sec = some .outreach && !line.isEmpty then
      netGo rest sec { st with outreach_template := st.outreach_template ++ String.mk line ++ "\n" }
    else netGo rest sec st

/-- `CareerPlannerAgent._parse_networking_strategy`. -/
def parseNetworkingStrategy (text : String) : NetworkingStrategy :=
  netGo (pyLines text.data) none ⟨[], [], ""⟩

/-- `CareerPlannerAgent.generate_networking_strategy`. -/
def generateNetworkingStrategy (llmResult : Except String String) : NetworkingStrategy :=
  match llmResult with
  | .ok resp => parseNetworkingStrategy resp
  | .error _ =>
    ⟨["Hiring Managers", "Team Leads", "Recruiters"],
     ["LinkedIn Groups", "Industry Conferences"],
     "Professional networking message template"⟩

/-! ### EthicsAuditorAgent (src/agents/ethics_auditor_agent.py) -/

/-- Generic `re.search` existence driver without boundary context. -/
def scanB (f : List Char → Bool) : List Char → Bool
  | [] => f []
  | c :: tl => f (c :: tl) || scanB f tl

/-- How many of `terms` occur as substrings (Python `sum(1 for k in terms if k in low)`). -/
def countSubs (terms : List String) (low : List Char) : Nat :=
  (terms.filter (fun t => hasSub t.data low)).length

def resumeKeywords : List String :=
  ["experience", "skills", "education", "work", "project", "responsibilities",
   "achievements", "degree", "certificate", "position", "role", "company", "team"]

def masculineCoded : List String :=
  ["aggressive", "competitive", "dominant", "decisive", "assertive", "ambitious"]

def feminineCoded : List String :=
  ["supportive", "collaborative", "nurturing", "understanding", "loyal"]

def inclusiveTerms : List String :=
  ["diverse", "inclusive", "accessible", "equitable", "collaborative"]

/-- Matcher for `\b(19|20)\d{2}\b` at one position. -/
def ageAt1 (prev : Option Char) (l : List Char) : Bool :=
  bBefore prev &&
  (match l with
   | a :: b :: c :: d :: rest =>
     ((a == '1' && b == '9') || (a == '2' && b == '0')) && c.isDigit && d.isDigit &&
       bAfterOk rest
   | _ => false)

def agePat1 (low : List Char) : Bool := scanPrevB ageAt1 none low

/-- Matcher for `\b\d{2}\+?\s*years?\s+(?:of\s+)?experience\b` (IGNORECASE, so run
on the lowered text).  The optional `+`, the optional `s` of `years?` and the
optional `of\s+` are committed: whenever the optional piece is present in the
text, the branch skipping it meets a character (`+`, `s`, `o`) that the
following `\s`/literal cannot accept, so no backtracking can succeed. -/
def ageAt2 (prev : Option Char) (l : List Char) : Bool :=
  bBefore prev &&
  (match l with
   | a :: b :: r0 =>
     a.isDigit && b.isDigit &&
     (let r1 := match r0 with | '+' :: tl => tl | _ => r0
      match stripPref "year".data (r1.dropWhile pyWsChar) with
      | none => false
      | some r3 =>
        let r4 := match r3 with | 's' :: tl => tl | _ => r3
        match r4 with
        | c :: _ =>
          pyWsChar c &&
          (let r5 := r4.dropWhile pyWsChar
           let r6 :=
             match stripPref "of".data r5 with
             | some tl =>
               match tl with
               | c2 :: _ => if pyWsChar c2 then some (tl.dropWhile pyWsChar) else none
               | [] => none
             | none => some r5
           match r6 with
           | none => false
           | some r7 =>
             match stripPref "experience".data r7 with
             | none => false
             | some r8 => bAfterOk r8)
        | [] => false)
   | _ => false)

def agePat2 (low : List Char) : Bool := scanPrevB ageAt2 none low

/-- `\bW1\s+W2\b` at one position (used for `senior professional`,
`ivy league`, `top tier`). -/
def twoWordAt (w1 w2 : String) (l : List Char) : Bool :=
  match stripPref w1.data l with
  | none => false
  | some r1 =>
    match r1 with
    | c :: _ =>
      pyWsChar c &&
        (match stripPref w2.data (r1.dropWhile pyWsChar) with
         | some r2 => bAfterOk r2
         | none => false)
    | [] => false

/-- Matcher for `\bsenior\s+professional\b` (IGNORECASE). -/
def ageAt3 (prev : Option Char) (l : List Char) : Bool :=
  bBefore prev && twoWordAt "senior" "professional" l

def agePat3 (low : List Char) : Bool := scanPrevB ageAt3 none low

/-- Matcher for `\b(ivy\s+league|top\s+tier|elite)\b` (IGNORECASE). -/
def eliteAt (prev : Option Char) (l : List Char) : Bool :=
  bBefore prev &&
  (twoWordAt "ivy" "league" l || twoWordAt "top" "tier" l ||
    (match stripPref "elite".data l with
     | some r => bAfterOk r
     | none => false))

def elitePat (low : List Char) : Bool := scanPrevB eliteAt none low

structure ResumeAudit where
  score : Int
  biases_found : List String
  suggestions : List String
  inclusive_signals : Nat
  is_biased : Bool
deriving DecidableEq

def ageSuggestion1 : String :=
  "Graduation year visible - consider removing to avoid age discrimination"

def ageSuggestion2 : String :=
  "Extensive years mentioned - consider 'significant experience' instead"

def ageSuggestion3 : String := "May indicate age - consider role-specific titles"

/-- `EthicsAuditorAgent.audit_resume`.  The sequential score mutations of the
source become a chain of bindings; `biases_found` is `list(set(...))`, modelled
as first-occurrence deduplication (no claim depends on a set's ordering). -/
def auditResume (resume_text : String) : ResumeAudit :=
  let stripped := pyStrip resume_text.data
  let textLower := pyStrip (pyLower resume_text.data)
  let lowFull := pyLower resume_text.data
  let shortRes := stripped.length < 50
  let score1 : Int := if shortRes then 30 else 70
  let kc := countSubs resumeKeywords textLower
  let invalid := kc = 0 ∧ stripped.length > 10
  let lowQ := kc < 3 ∧ stripped.length > 50
  let score2 : Int := if invalid then 20 else if lowQ then score1 - 15 else score1
  let score3 : Int := if 6 ≤ kc then score2 + 15 else score2
  let a1 := agePat1 lowFull
  let a2 := agePat2 lowFull
  let a3 := agePat3 lowFull
  let score4 : Int := score3 - (if a1 then 5 else 0) - (if a2 then 5 else 0)
    - (if a3 then 5 else 0)
  let masc := countSubs masculineCoded textLower
  let fem := countSubs feminineCoded textLower
  let score5 : Int := if 3 < masc then score4 - 5 else score4
  let score6 : Int := if 3 < fem then score5 - 5 else score5
  let el := elitePat lowFull
  let score7 : Int := if el then score6 - 3 else score6
  let inc := countSubs inclusiveTerms textLower
  let score8 : Int := if 0 < inc then score7 + 2 * (inc : Int) else score7
  let biases : List String :=
    (if shortRes then ["Insufficient Content"] else []) ++
    (if invalid then ["Invalid Content"] else if lowQ then ["Low Quality Resume"] else []) ++
    (if a1 then ["Age Indicator"] else []) ++
    (if a2 then ["Age Indicator"] else []) ++
    (if a3 then ["Age Indicator"] else []) ++
    (if 3 < masc then ["Gender-Coded Language (Masculine)"] else []) ++
    (if 3 < fem then ["Gender-Coded Language (Feminine)"] else []) ++
    (if el then ["Elite Institution Emphasis"] else [])
  let suggestions : List String :=
    (if shortRes then
      ["Resume too short - provide more details about your experience and skills"] else []) ++
    (if invalid then
      ["Content doesn't appear to be a resume - should include work experience, skills, education"]
     else if lowQ then
      ["Resume lacks detail - include clear sections for experience, skills, and education"]
     else []) ++
    (if a1 then [ageSuggestion1] else []) ++
    (if a2 then [ageSuggestion2] else []) ++
    (if a3 then [ageSuggestion3] else []) ++
    (if 3 < masc then ["Consider balancing masculine-coded words with neutral alternatives"] else []) ++
    (if 3 < fem then ["Consider balancing feminine-coded words with neutral alternatives"] else []) ++
    (if el then
      ["While noting education is fine, excessive emphasis on 'elite' status may trigger bias"]
     else [])
  { score := max 0 (min 100 score8)
    biases_found := dedupFirst biases
    suggestions := suggestions
    inclusive_signals := inc
    is_biased := score8 < 70 }

def jobKeywords : List String :=
  ["role", "position", "responsibilities", "requirements", "qualifications",
   "experience", "skills", "duties", "job", "candidate", "team", "company",
   "salary", "benefits", "work", "hiring"]

/-- The `age_terms` pairs of `audit_job_description`, with the flag strings the
source builds via `term.title()` written out. -/
def ethicsAgeTerms : List (String × String) :=
  [("digital native", "'Digital Native' - May exclude older workers"),
   ("recent graduate", "'Recent Graduate' - Excludes experienced professionals"),
   ("young and energetic", "'Young And Energetic' - Direct age discrimination"),
   ("new grad", "'New Grad' - Age-restrictive")]

/-- The flattened `gendered_terms` tuples of `audit_job_description`, in the
order the nested loops visit them, with the `term.title()` flag strings. -/
def ethicsGenderedTerms : List (String × String) :=
  [("rockstar", "'Rockstar' is masculine-coded - use neutral alternatives"),
   ("guru", "'Guru' is masculine-coded - use neutral alternatives"),
   ("ninja", "'Ninja' is masculine-coded - use neutral alternatives"),
   ("wizard", "'Wizard' is masculine-coded - use neutral alternatives"),
   ("aggressive", "'Aggressive' is masculine-coded - use neutral alternatives"),
   ("dominant", "'Dominant' is masculine-coded - use neutral alternatives"),
   ("competitive", "'Competitive' is masculine-coded - use neutral alternatives")]

def inclusivePhrases : List String :=
  ["equal opportunity employer", "diverse", "inclusive", "all qualified applicants",
   "disability", "veteran", "accommodation"]

/-- Matcher for `\b(he|him|his)\b` (IGNORECASE). -/
def pronounAt (prev : Option Char) (l : List Char) : Bool :=
  bBefore prev &&
  ((match stripPref "him".data l with
    | some r => bAfterOk r
    | none => false) ||
   (match stripPref "his".data l with
    | some r => bAfterOk r
    | none => false) ||
   (match stripPref "he".data l with
    | some r => bAfterOk r
    | none => false))

def pronounPat (low : List Char) : Bool := scanPrevB pronounAt none low

/-- The `\b(phd|master\'?s|mba)\b` target of the credential pattern. -/
def credTarget (prev : Option Char) (l : List Char) : Bool :=
  bBefore prev &&
  ((match stripPref "phd".data l with
    | some r => bAfterOk r
    | none => false) ||
   (match stripPref "master".data l with
    | some r1 =>
      match r1 with
      | '\'' :: 's' :: r2 => bAfterOk r2
      | 's' :: r2 => bAfterOk r2
      | _ => false
    | none => false) ||
   (match stripPref "mba".data l with
    | some r => bAfterOk r
    | none => false))

/-- Matcher for `\brequire[sd]?\s+.*\b(phd|master\'?s|mba)\b` at one position
(the pattern is run on the already lowered `text_lower`).  `[sd]?` is committed:
if `s`/`d` is present, the skip branch puts `\s+` on that letter and fails. -/
def credAt (prev : Option Char) (l : List Char) : Bool :=
  bBefore prev &&
  (match stripPref "require".data l with
   | none => false
   | some r1 =>
     let r2 := match r1 with
       | 's' :: tl => tl
       | 'd' :: tl => tl
       | _ => r1
     wsPlusScan credTarget r2)

def credentialPat (textLower : List Char) : Bool := scanPrevB credAt none textLower

/-- The `\brequired\b` target of the experience-barrier pattern. -/
def reqTarget (prev : Option Char) (l : List Char) : Bool :=
  bBefore prev &&
  (match stripPref "required".data l with
   | some r => bAfterOk r
   | none => false)

/-- Matcher for `\b(\d{1,2})\+?\s*years?\s+.*\brequired\b` (run on the original
`job_desc`, no IGNORECASE).  `\d{1,2}` takes a second digit exactly when one is
present; retrying with one digit leaves a digit where `\+?\s*years` must start,
so it can never rescue a failed two-digit attempt, and a third digit makes both
attempts fail just as in Python. -/
def expAt (prev : Option Char) (l : List Char) : Bool :=
  bBefore prev &&
  (match l with
   | a :: r0 =>
     a.isDigit &&
     (let r1 := match r0 with
        | b :: tl => if b.isDigit then tl else r0
        | [] => r0
      let r2 := match r1 with | '+' :: tl => tl | _ => r1
      match stripPref "year".data (r2.dropWhile pyWsChar) with
      | none => false
      | some r3 =>
        let r4 := match r3 with | 's' :: tl => tl | _ => r3
        wsPlusScan reqTarget r4)
   | [] => false)

def expBarrierPat (original : List Char) : Bool := scanPrevB expAt none original

structure JobDescAudit where
  score : Int
  issues : List String
  flags : List String
  inclusive_signals : Nat
  is_discriminatory : Bool
deriving DecidableEq

/-- `EthicsAuditorAgent.audit_job_description`. -/
def auditJobDescription (job_desc : String) : JobDescAudit :=
  let stripped := pyStrip job_desc.data
  let textLower := pyStrip (pyLower job_desc.data)
  let lowFull := pyLower job_desc.data
  let shortJD := stripped.length < 50
  let score1 : Int := if shortJD then 30 else 70
  let kc := countSubs jobKeywords textLower
  let invalid := kc = 0 ∧ stripped.length > 10
  let lowQ := kc < 3 ∧ stripped.length > 50
  let score2 : Int := if invalid then 20 else if lowQ then score1 - 20 else score1
  let score3 : Int := if 5 ≤ kc then score2 + 15 else score2
  let pron := pronounPat lowFull
  let score4 : Int := if pron then score3 - 10 else score3
  let ageFound := ethicsAgeTerms.filter (fun p => hasSub p.1.data textLower)
  let score5 : Int := score4 - 10 * (ageFound.length : Int)
  let genderFound := ethicsGenderedTerms.filter (fun p => hasSub p.1.data textLower)
  let score6 : Int := score5 - 5 * (genderFound.length : Int)
  let cred := credentialPat textLower ∧ ¬(hasSub "or equivalent".data textLower = true)
    ∧ ¬(hasSub "preferred".data textLower = true)
  let score7 : Int := if cred then score6 - 8 else score6
  let expB := expBarrierPat job_desc.data
  let score8 : Int := if expB then score7 - 5 else score7
  let inc := countSubs inclusivePhrases textLower
  let score9 : Int := if 0 < inc then score8 + 3 * (inc : Int) else score8
  let issues : List String :=
    (if shortJD then ["Insufficient Content"] else []) ++
    (if invalid then ["Invalid Content"] else if lowQ then ["Low Quality Content"] else []) ++
    (if pron then ["Gendered Pronouns"] else []) ++
    ageFound.map (fun _ => "Age Discrimination") ++
    genderFound.map (fun _ => "Gender-Coded Language") ++
    (if cred then ["Credential Inflation"] else []) ++
    (if expB then ["Experience Barrier"] else [])
  let flags : List String :=
    (if shortJD then ["Job description too short - should provide detailed role information"] else []) ++
    (if invalid then
      ["Content doesn't appear to be a job description - no job-related keywords found"]
     else if lowQ then
      ["Job description lacks detail - should include responsibilities, requirements, etc."]
     else []) ++
    (if pron then ["Uses 'he/him' - use gender-neutral 'they/them' instead"] else []) ++
    ageFound.map (fun p => p.2) ++
    genderFound.map (fun p => p.2) ++
    (if cred then ["Strict degree requirement may exclude qualified candidates"] else []) ++
    (if expB then ["Consider if all years are truly required or if skills matter more"] else [])
  { score := max 0 (min 100 score9)
    issues := dedupFirst issues
    flags := flags
    inclusive_signals := inc
    is_discriminatory := score9 < 65 }

/-! ### PersonalizationAgent (src/agents/personalization_agent.py) -/

structure AuditResult where
  score : Int
  flags : List String
  is_biased : Bool
deriving DecidableEq

def biasWords : List String :=
  ["ninja", "rockstar", "guru", "dominant", "aggressive", "young", "energetic",
   "competitive", "ambitious", "assertive", "strong", "dynamic"]

def inclusiveWords : List String :=
  ["diverse", "inclusive", "equitable", "accessible", "flexible",
   "collaborative", "supportive", "balanced", "equal opportunity"]

/-- The heuristic branch of `PersonalizationAgent.audit_job` (`audit_enabled`
false).  The float comparison `caps_ratio > 0.15` is modelled exactly in the
rationals (`20·u > 3·max(len,1)`); no claim depends on inputs near the
threshold where binary-float rounding of the quotient could differ. -/
def auditJobHeuristic (job_text : String) : AuditResult :=
  let textLower := pyLower job_text.data
  let foundBias := biasWords.filter (fun w => hasSub w.data textLower)
  let score1 : Int := if foundBias.isEmpty then 75 else 75 - 8 * (foundBias.length : Int)
  let flags1 : List String :=
    if foundBias.isEmpty then []
    else ["Potentially biased terms: " ++ joinSep ", " (foundBias.take 3)]
  let foundInc := inclusiveWords.filter (fun w => hasSub w.data textLower)
  let score2 : Int :=
    if foundInc.isEmpty then score1 else min (score1 + 4 * (foundInc.length : Int)) 100
  let score3 : Int := if 2000 < job_text.data.length then score2 - 5 else score2
  let upperCount := (job_text.data.filter Char.isUpper).length
  let capsHit := 3 * (max job_text.data.length 1) < 20 * upperCount
  let score4 : Int := if capsHit then score3 - 10 else score3
  let flags2 := flags1 ++ (if capsHit then ["Excessive capitalization detected"] else [])
  let flags3 := if flags2.isEmpty then ["Basic audit completed (API unavailable)"] else flags2
  { score := max 45 (min 100 score4)
    flags := flags3
    is_biased := score4 < 70 }

/-- Matcher for `SCORE:\s*(\d+)` (case-sensitive) at one position. -/
def scoreAt (l : List Char) : Option Nat :=
  match stripPref "SCORE:".data l with
  | none => none
  | some r1 =>
    let ds := (r1.dropWhile pyWsChar).takeWhile Char.isDigit
    if ds.isEmpty then none else some (natOfDigits ds)

def scoreSearch (resp : String) : Option Nat := scanFirst scoreAt resp.data

/-- Matcher for `FLAGS:\s*(.+)` at one position.  `\s*` is greedy; when it
swallows the whole remainder, `.+` backtracks into the trailing whitespace and
captures the last non-newline character of it (`.` cannot match `\n`). -/
def flagsAt (l : List Char) : Option (List Char) :=
  match stripPref "FLAGS:".data l with
  | none => none
  | some r1 =>
    let q := r1.dropWhile pyWsChar
    match q with
    | _ :: _ => some (q.takeWhile (fun c2 => !(c2 == '\n')))
    | [] =>
      match (r1.takeWhile pyWsChar).reverse.dropWhile (fun c => c == '\n') with
      | [] => none
      | c :: _ => some [c]

/-- The flag-list parse of `audit_job`: capture (or `"None"`), split on commas,
keep entries whose stripped lowercase form is not `none`, stripped. -/
def parseFlags (resp : String) : List String :=
  let flagsText :=
    match scanFirst flagsAt resp.data with
    | some cap => pyStrip cap
    | none => "None".data
  ((splitOnCh ',' flagsText).filter
      (fun s => !(pyLower (pyStrip s) == "none".data))).map
    (fun s => String.mk (pyStrip s))

/-- The successful-response parse of `PersonalizationAgent.audit_job`:
note the parsed score is used as-is (no clamp). -/
def auditJobLLM (resp : String) : AuditResult :=
  let score : Int := match scoreSearch resp with | some n => (n : Int) | none => 75
  { score := score
    flags := parseFlags resp
    is_biased := score < 70 }

def fallbackAuditResult : AuditResult :=
  ⟨70, ["Audit Skipped (Service Unavailable)"], false⟩

/-- The reason string built by the exception handler of `audit_job`. -/
def auditErrReason (e : String) : String :=
  if hasSub "quota".data (pyLower e.data) then "Quota Exceeded"
  else if hasSub "key".data (pyLower e.data) then "Invalid API Key"
  else "Error: " ++ String.mk (e.data.take 100)

/-- `PersonalizationAgent.audit_job`: heuristic branch when auditing is
disabled, otherwise parse of the model reply with empty-reply and exception
fallbacks. -/
def auditJob (audit_enabled : Bool) (llmResult : Except String String)
    (job_text : String) : AuditResult :=
  if !audit_enabled then auditJobHeuristic job_text
  else
    match llmResult with
    | .ok resp => if resp = "" then fallbackAuditResult else auditJobLLM resp
    | .error e => ⟨70, ["Audit Skipped (" ++ auditErrReason e ++ ")"], false⟩

/-! ### SkillAnalyzerAgent (src/agents/skill_analyzer_agent.py) -/

inductive SkillCat where
  | technical
  | soft
  | domain
deriving DecidableEq

/-- The line scanner of `SkillAnalyzerAgent._parse_skills`. -/
def parseSkillsGo : List (List Char) → Option SkillCat → Skills → Skills
  | [], _, sk => sk
  | rawLine :: rest, cat, sk =>
    let line := pyStrip rawLine
    let up := pyUpper line
    if hasSub "TECHNICAL:".data up then parseSkillsGo rest (some .technical) sk
    else if hasSub "SOFT:".data up then parseSkillsGo rest (some .soft) sk
    else if hasSub "DOMAIN:".data up then parseSkillsGo rest (some .domain) sk
    else if hasPref "-".data line && cat.isSome then
      let skill := pyStrip (pyLStripSet "-".data line)
      if !skill.isEmpty && skill.length > 2 then
        match cat with
        | some .technical => parseSkillsGo rest cat { sk with technical := sk.technical ++ [String.mk skill] }
        | some .soft => parseSkillsGo rest cat { sk with soft := sk.soft ++ [String.mk skill] }
        | some .domain => parseSkillsGo rest cat { sk with domain := sk.domain ++ [String.mk skill] }
        | none => parseSkillsGo rest cat sk
      else parseSkillsGo rest cat sk
    else parseSkillsGo rest cat sk

/-- `SkillAnalyzerAgent._parse_skills`. -/
def parseSkills (text : String) : Skills := parseSkillsGo (pyLines text.data) none ⟨[], [], []⟩

/-- `SkillAnalyzerAgent.extract_skills_from_text` (the text and source type only
shape the prompt; the catch-all `except` returns the empty dictionary). -/
def extractSkillsFromText (llmResult : Except String String)
    (_text _source_type : String) : Skills :=
  match llmResult with
  | .ok resp => parseSkills resp
  | .error _ => ⟨[], [], []⟩

def stopWords : List String := ["and", "or", "the", "in", "with", "for", "to", "of", "a", "an"]

/-- Split into maximal `\w+` runs (`re.findall(r'\w+', s)`). -/
def wordRunsGo : List Char → List Char → List (List Char)
  | acc, [] => if acc.isEmpty then [] else [acc.reverse]
  | acc, c :: tl =>
    if wordChar c then wordRunsGo (c :: acc) tl
    else if acc.isEmpty then wordRunsGo [] tl
    else acc.reverse :: wordRunsGo [] tl

def wordRuns (l : List Char) : List (List Char) := wordRunsGo [] l

/-- Helper for `dedupCL`. -/
def dedupCLAux : List (List Char) → List (List Char) → List (List Char)
  | _, [] => []
  | seen, x :: tl =>
    if seen.contains x then dedupCLAux seen tl else x :: dedupCLAux (x :: seen) tl

/-- Deduplication keeping first occurrences (the `set(...)` of `_skills_similar`;
only cardinalities of the sets matter there). -/
def dedupCL : List (List Char) → List (List Char) :=
  fun l => dedupCLAux [] l

/-- `SkillAnalyzerAgent._skills_similar`.  The float test
`len(shared)/max(...) >= 0.5` is `2·|shared| ≥ max` exactly (0.5 is a binary
float and the operands are small integers, so no rounding can cross it). -/
def skillsSimilar (skill1 skill2 : String) : Bool :=
  let stop := stopWords.map (fun s => s.data)
  let w1 := (dedupCL (wordRuns (pyLower skill1.data))).filter (fun w => !stop.contains w)
  let w2 := (dedupCL (wordRuns (pyLower skill2.data))).filter (fun w => !stop.contains w)
  if w1.isEmpty || w2.isEmpty then false
  else
    let shared := w1.filter (fun w => w2.contains w)
    decide (max w1.length w2.length ≤ 2 * shared.length)

/-- The three-way match test of the `analyze_skill_gaps` inner loop. -/
def skillMatchOne (jobSkill resumeSkill : String) : Bool :=
  let j := pyLower jobSkill.data
  let r := pyLower resumeSkill.data
  hasSub j r || hasSub r j || skillsSimilar (String.mk j) (String.mk r)

structure SkillGaps where
  critical : List String
  moderate : List String
  minor : List String
deriving DecidableEq

structure SkillMatched where
  technical : List String
  soft : List String
  domain : List String
deriving DecidableEq

structure GapAnalysis where
  gaps : SkillGaps
  matched : SkillMatched
  match_percentage : ℚ
  resume_skills : Skills
  job_skills : Skills
deriving DecidableEq

/-- Job skills of one category that some resume skill of that category matches;
the loop appends them in job-list order, i.e. a filter. -/
def matchedIn (resumeList jobList : List String) : List String :=
  jobList.filter (fun j => resumeList.any (fun r => skillMatchOne j r))

def gapsIn (resumeList jobList : List String) : List String :=
  jobList.filter (fun j => !resumeList.any (fun r => skillMatchOne j r))

/-- Python `round(x, 1)` on exact rationals; the half-even tie rule and binary
float representation differ from this only on exact ties, which no stated
bound depends on. -/
def pyRound1 (q : ℚ) : ℚ := ((⌊q * 10 + 1 / 2⌋ : Int) : ℚ) / 10

/-- `SkillAnalyzerAgent.analyze_skill_gaps`. -/
def analyzeSkillGaps (resume_skills job_skills : Skills) : GapAnalysis :=
  let mt := matchedIn resume_skills.technical job_skills.technical
  let ms := matchedIn resume_skills.soft job_skills.soft
  let md := matchedIn resume_skills.domain job_skills.domain
  let totalRequired :=
    job_skills.technical.length + job_skills.soft.length + job_skills.domain.length
  let totalMatched := mt.length + ms.length + md.length
  let mp : ℚ :=
    if 0 < totalRequired then (totalMatched : ℚ) / (totalRequired : ℚ) * 100 else 0
  { gaps :=
      { critical := gapsIn resume_skills.technical job_skills.technical
        moderate := gapsIn resume_skills.domain job_skills.domain
        minor := gapsIn resume_skills.soft job_skills.soft }
    matched := ⟨mt, ms, md⟩
    match_percentage := pyRound1 mp
    resume_skills := resume_skills
    job_skills := job_skills }

/-! ### InterviewCoachAgent (src/agents/interview_coach_agent.py) -/

structure FeedbackDetail where
  strengths : List String
  improvements : List String
deriving DecidableEq

structure EvalResult where
  score : Nat
  feedback : String
  is_correct : String
  better_answer : String
  detailed_analysis : FeedbackDetail
deriving DecidableEq

/-- First line of `text` containing `needle` (`[line for line in ... if needle in line][0]`). -/
def firstLineWith (needle : String) (text : String) : Option (List Char) :=
  (pyLines text.data).find? (fun l => hasSub needle.data l)

/-- The score parse of `evaluate_answer`: all digits of the first `Score:` line
joined (`''.join(filter(str.isdigit, score_line))`), default 5. -/
def evalScore (feedback : String) : Nat :=
  if hasSub "Score:".data feedback.data then
    match firstLineWith "Score:" feedback with
    | some line =>
      let ds := line.filter Char.isDigit
      if ds.isEmpty then 5 else natOfDigits ds
    | none => 5
  else 5

/-- The correctness parse of `evaluate_answer` (substring checks on the lowered
first `Correctness:` line, in source order). -/
def evalCorrectness (feedback : String) : String :=
  if hasSub "Correctness:".data feedback.data then
    match firstLineWith "Correctness:" feedback with
    | some line =>
      let low := pyLower line
      if hasSub "incorrect".data low then "incorrect"
      else if hasSub "partially".data low then "partial"
      else if hasSub "correct".data low then "correct"
      else "unknown"
    | none => "unknown"
  else "unknown"

/-- The line loop of the better-answer extraction: collect cleaned non-empty
lines, stopping at the first `STAR Method:` line. -/
def betterGo : List (List Char) → List String → List String
  | [], acc => acc
  | line :: rest, acc =>
    let s := pyStrip line
    if !s.isEmpty && !(hasPref "STAR Method:".data s || hasPref "Score:".data s
        || hasPref "Correctness:".data s) then
      betterGo rest (acc ++ [String.mk (pyStrip (replAll "Better Answer:".data [] line))])
    else if hasPref "STAR Method:".data s then acc
    else betterGo rest acc

def evalBetterAnswer (feedback : String) : String :=
  if hasSub "Better Answer:".data feedback.data then
    let lines := pyLines feedback.data
    match lines.findIdx? (fun l => hasSub "Better Answer:".data l) with
    | some i => String.mk (pyStrip (joinSep "\n" (betterGo (lines.drop i) [])).data)
    | none => ""
  else ""

/-- The section scanner of `InterviewCoachAgent._parse_feedback`
(`some true` = strengths, `some false` = improvements). -/
def feedbackGo : List (List Char) → Option Bool → List String → List String → FeedbackDetail
  | [], _, ss, ii => ⟨ss.take 3, ii.take 3⟩
  | rawLine :: rest, sec, ss, ii =>
    let line := pyStrip rawLine
    if hasSub "Strengths:".data line then feedbackGo rest (some true) ss ii
    else if hasSub "Improvements:".data line || hasSub "Areas for Improvement".data line then
      feedbackGo rest (some false) ss ii
    else if hasPref "-".data line || hasPref "•".data line then
      let item := pyStrip (pyLStripSet "-•".data line)
      if sec = some true && !item.isEmpty then feedbackGo rest sec (ss ++ [String.mk item]) ii
      else if sec = some false && !item.isEmpty then feedbackGo rest sec ss (ii ++ [String.mk item])
      else feedbackGo rest sec ss ii
    else feedbackGo rest sec ss ii

def parseFeedback (feedback : String) : FeedbackDetail :=
  feedbackGo (pyLines feedback.data) none [] []

/-- `InterviewCoachAgent.evaluate_answer`; the question, answer and job
description only shape the prompt, and the catch-all `except` branch builds
the degraded record embedding the exception text. -/
def evaluateAnswer (llmResult : Except String String)
    (_question _answer _job_description : String) : EvalResult :=
  match llmResult with
  | .ok feedback =>
    { score := min 10 (max 1 (evalScore feedback))
      feedback := feedback
      is_correct := evalCorrectness feedback
      better_answer := evalBetterAnswer feedback
      detailed_analysis := parseFeedback feedback }
  | .error e =>
    { score := 5
      feedback := "Error during evaluation: " ++ e ++
        "\n\nPlease try again or check your GROQ_API_KEY configuration."
      is_correct := "error"
      better_answer := ""
      detailed_analysis := ⟨[], ["Unable to evaluate - technical error occurred"]⟩ }

/-! ### SearchAgent (src/agents/search_agent.py) -/

def jobUrlPatterns : List String :=
  ["/job/", "/jobs/", "/career", "/apply", "/position",
   "/opening", "/vacancy", "/hiring", "/recruit"]

def excludeUrlPatterns : List String :=
  ["/blog/", "/news/", "/article/", "/post/", "/story/",
   "/updates/", "/press/", "/media/", "/tips/", "/guide/", "/advice/",
   "/search/", "/browse/", "/directory/", "/list/"]

def aggregatedPhrases : List String :=
  ["jobs in", "job openings in", "positions in", "vacancies in",
   "jobs available", "job listings", "careers in",
   "remote jobs", "job search", "find jobs", "jobs at",
   "hiring for", "open positions", "employment opportunities",
   "fully remote", "best companies"]

def jobContentIndicators : List String :=
  ["apply now", "submit application", "job description",
   "requirements:", "responsibilities:", "qualifications:",
   "salary", "compensation", "benefits", "experience required",
   "apply for this job", "send resume", "submit cv",
   "job summary", "about the role", "what you will do"]

/-- The `jobs?\b` tail with its leading `\b`: after `job`, a present `s` must be
taken (dropping it leaves the word char `s` where the boundary must hold). -/
def jobsWordAt (prev : Option Char) (l : List Char) : Bool :=
  bBefore prev &&
  (match stripPref "job".data l with
   | some r1 =>
     match r1 with
     | 's' :: r2 => bAfterOk r2
     | _ => bAfterOk r1
   | none => false)

/-- Matcher for `\d+\s+.*?\bjobs?\b` at one position of the lowered title
(laziness of `.*?` is irrelevant for match existence). -/
def countTitleAt (l : List Char) : Bool :=
  match l with
  | c :: tl => c.isDigit && wsPlusScan jobsWordAt (tl.dropWhile Char.isDigit)
  | [] => false

def titleCountPat (titleLower : List Char) : Bool := scanB countTitleAt titleLower

/-- `SearchAgent._is_job_posting` (a falsy `title`/`text` is the empty string). -/
def isJobPosting (url title text : String) : Bool :=
  let urlLower := pyLower url.data
  if excludeUrlPatterns.any (fun p => hasSub p.data urlLower) then false
  else
    let titleLower := if title = "" then [] else pyLower title.data
    if titleCountPat titleLower then false
    else if aggregatedPhrases.any (fun p => hasSub p.data titleLower) then false
    else
      let textLower := if text = "" then [] else pyLower text.data
      let indicatorCount :=
        (jobContentIndicators.filter
          (fun i => hasSub i.data textLower || hasSub i.data titleLower)).length
      let hasJobUrl := jobUrlPatterns.any (fun p => hasSub p.data urlLower)
      hasJobUrl || 2 ≤ indicatorCount

/-- One result of the search provider (`res.results` entries). -/
structure ProviderResult where
  url : String
  title : String
  text : String
  published_date : String
deriving DecidableEq

structure JobResult where
  title : String
  url : String
  text : String
  published_date : String
deriving DecidableEq

structure SearchOutput where
  raw_results : List JobResult
  status : String
  count : Nat
deriving DecidableEq

/-- `JobSearchConfig` (pydantic model; `num_jobs` is an unconstrained int). -/
structure JobSearchConfig where
  job_title : String
  location : Option String
  work_style : Option String
  num_jobs : Int
deriving DecidableEq

def toJobResult (r : ProviderResult) : JobResult :=
  { title := r.title
    url := r.url
    text := if r.text = "" then "Job opportunity. Visit link for details." else r.text
    published_date := r.published_date }

/-- The result loop of `SearchAgent.search`: skip seen URLs, keep results that
pass `_is_job_posting`, and break once `len(all_results) >= num_jobs * 2`. -/
def searchLoop (limit2 : Int) : List ProviderResult → List String → List JobResult → List JobResult
  | [], _, acc => acc
  | r :: rs, seen, acc =>
    if seen.contains r.url then searchLoop limit2 rs seen acc
    else if isJobPosting r.url r.title r.text then
      let acc' := acc ++ [toJobResult r]
      if limit2 ≤ (acc'.length : Int) then acc'
      else searchLoop limit2 rs (r.url :: seen) acc'
    else searchLoop limit2 rs seen acc

/-- `SearchAgent.search`: the provider call is the `Except`-valued input; an
exception leaves `all_results` empty. -/
def searchAgentSearch (config : JobSearchConfig)
    (apiResult : Except String (List ProviderResult)) : SearchOutput :=
  let allResults :=
    match apiResult with
    | .ok rs => searchLoop (config.num_jobs * 2) rs [] []
    | .error _ => []
  { raw_results := allResults
    status := if allResults.isEmpty then "no_results" else "success"
    count := allResults.length }

/-! ### Supporting lemmas -/

theorem hasPref_append_self (n suf : List Char) : hasPref n (n ++ suf) = true := by
  induction n with
  | nil => rfl
  | cons c tl ih => simp [hasPref, ih]

theorem hasSub_append_self (n suf : List Char) : hasSub n (n ++ suf) = true := by
  cases n with
  | nil =>
    cases suf with
    | nil => rfl
    | cons c tl => simp [hasSub, hasPref]
  | cons c tl =>
    rw [List.cons_append, hasSub, Bool.or_eq_true]
    exact Or.inl (hasPref_append_self (c :: tl) suf)

theorem hasSub_of_decomp {n : List Char} (pre suf : List Char) :
    hasSub n (pre ++ n ++ suf) = true := by
  induction pre with
  | nil => simpa using hasSub_append_self n suf
  | cons a pre ih =>
    have he : (a :: pre) ++ n ++ suf = a :: (pre ++ n ++ suf) := by simp
    rw [he, hasSub, Bool.or_eq_true]
    exact Or.inr ih

theorem hasPref_decomp {n l : List Char} (h : hasPref n l = true) :
    ∃ suf, l = n ++ suf := by
  induction n generalizing l with
  | nil => exact ⟨l, rfl⟩
  | cons c tl ih =>
    cases l with
    | nil => simp [hasPref] at h
    | cons b bs =>
      simp only [hasPref, Bool.and_eq_true, beq_iff_eq] at h
      obtain ⟨rfl, h2⟩ := h
      obtain ⟨suf, rfl⟩ := ih h2
      exact ⟨suf, rfl⟩

theorem hasSub_decomp {n l : List Char} (h : hasSub n l = true) :
    ∃ pre suf, l = pre ++ n ++ suf := by
  induction l with
  | nil =>
    cases n with
    | nil => exact ⟨[], [], rfl⟩
    | cons c tl => simp [hasSub, List.isEmpty] at h
  | cons b bs ih =>
    rw [hasSub, Bool.or_eq_true] at h
    rcases h with h | h
    · obtain ⟨suf, hsuf⟩ := hasPref_decomp h
      exact ⟨[], suf, by simp [hsuf]⟩
    · obtain ⟨pre, suf, hps⟩ := ih h
      exact ⟨b :: pre, suf, by simp [hps]⟩

theorem hasSub_map {n l : List Char} (f : Char → Char) (h : hasSub n l = true) :
    hasSub (n.map f) (l.map f) = true := by
  obtain ⟨pre, suf, rfl⟩ := hasSub_decomp h
  have he : (pre ++ n ++ suf).map f = pre.map f ++ n.map f ++ suf.map f := by simp
  rw [he]
  exact hasSub_of_decomp (pre.map f) (suf.map f)

theorem hasSub_reverse {n l : List Char} (h : hasSub n l = true) :
    hasSub n.reverse l.reverse = true := by
  obtain ⟨pre, suf, rfl⟩ := hasSub_decomp h
  have he : (pre ++ n ++ suf).reverse = suf.reverse ++ n.reverse ++ pre.reverse := by simp
  rw [he]
  exact hasSub_of_decomp suf.reverse pre.reverse

theorem hasSub_dropWhile {p : Char → Bool} {c : Char} {n l : List Char}
    (hc : p c = false) (h : hasSub (c :: n) l = true) :
    hasSub (c :: n) (l.dropWhile p) = true := by
  obtain ⟨pre, suf, rfl⟩ := hasSub_decomp h
  induction pre with
  | nil =>
    rw [List.nil_append, List.cons_append, List.dropWhile_cons, hc]
    simp only [Bool.false_eq_true, if_false]
    have := @hasSub_of_decomp (c :: n) [] suf
    simpa using this
  | cons a pre ih =>
    rw [List.cons_append, List.cons_append, List.dropWhile_cons]
    by_cases hpa : p a = true
    · rw [hpa, if_pos rfl]
      exact ih (hasSub_of_decomp pre suf)
    · rw [Bool.not_eq_true] at hpa
      rw [hpa]
      simp only [Bool.false_eq_true, if_false]
      have := @hasSub_of_decomp (c :: n) (a :: pre) suf
      simpa using this

/-- A substring whose first and last characters are not whitespace survives
Python's `strip`. -/
theorem hasSub_pyStrip {c d : Char} {mid l : List Char}
    (hc : pyWsChar c = false) (hd : pyWsChar d = false)
    (h : hasSub (c :: (mid ++ [d])) l = true) :
    hasSub (c :: (mid ++ [d])) (pyStrip l) = true := by
  have h1 : hasSub (c :: (mid ++ [d])) (l.dropWhile pyWsChar) = true :=
    hasSub_dropWhile hc h
  have h2 := hasSub_reverse h1
  have hrev : (c :: (mid ++ [d])).reverse = d :: (mid.reverse ++ [c]) := by simp
  rw [hrev] at h2
  have h3 : hasSub (d :: (mid.reverse ++ [c]))
      (((l.dropWhile pyWsChar).reverse).dropWhile pyWsChar) = true :=
    hasSub_dropWhile hd h2
  have h4 := hasSub_reverse h3
  have hrev2 : (d :: (mid.reverse ++ [c])).reverse = c :: (mid ++ [d]) := by simp
  rw [hrev2] at h4
  exact h4

theorem scanFirst_append_isSome {α : Type} (f : List Char → Option α)
    (a b : List Char) (h : (f b).isSome) : (scanFirst f (a ++ b)).isSome := by
  induction a with
  | nil =>
    rw [List.nil_append]
    cases b with
    | nil => simpa [scanFirst] using h
    | cons c tl =>
      rw [scanFirst]
      cases hf : f (c :: tl) with
      | some v => simp
      | none => rw [hf] at h; simp at h
  | cons c tl ih =>
    rw [List.cons_append, scanFirst]
    cases hf : f (c :: (tl ++ b)) with
    | some v => simp
    | none => simpa using ih

theorem mem_dedupAux {a : String} : ∀ {seen l : List String}, a ∈ l →
    a ∈ dedupAux seen l ∨ seen.contains a = true := by
  intro seen l
  induction l generalizing seen with
  | nil => intro h; cases h
  | cons x tl ih =>
    intro h
    rw [dedupAux]
    rcases List.mem_cons.mp h with rfl | htl
    · by_cases hx : seen.contains a = true
      · exact Or.inr hx
      · rw [Bool.not_eq_true] at hx
        rw [hx]
        simp only [Bool.false_eq_true, if_false]
        exact Or.inl (List.mem_cons_self _ _)
    · by_cases hx : seen.contains x = true
      · rw [hx, if_pos rfl]
        exact ih htl
      · rw [Bool.not_eq_true] at hx
        rw [hx]
        simp only [Bool.false_eq_true, if_false]
        rcases @ih (x :: seen) htl with h1 | h1
        · exact Or.inl (List.mem_cons_of_mem _ h1)
        · rw [List.contains_cons, Bool.or_eq_true, beq_iff_eq] at h1
          rcases h1 with rfl | h1
          · exact Or.inl (List.mem_cons_self _ _)
          · exact Or.inr h1

theorem mem_dedupFirst {a : String} {l : List String} (h : a ∈ l) :
    a ∈ dedupFirst l := by
  rcases @mem_dedupAux a [] l h with h1 | h1
  · exact h1
  · simp [List.contains] at h1

theorem feasAt1_at_occurrence (rest : List Char) :
    feasAt1 ("feasibility: 7/10".data ++ rest) = some 7 := rfl

/-! ### Claim theorems -/

/-- C1: every agent operation that wraps an external call in a catch-all
`except` — `predict_career_path`, `evaluate_answer`, `search`,
`extract_skills_from_text` — maps an erroring call to its fixed fallback value
of the same result shape.  The operations are total functions of the
`Except`-valued call result, so no error value propagates to the caller. -/
theorem c1_external_failure_fallbacks (e current target : String) (sk : Skills)
    (q a jd txt st : String) (cfg : JobSearchConfig) :
    predictCareerPath (.error e) current target sk = calculateFallbackPath current target sk ∧
    evaluateAnswer (.error e) q a jd =
      { score := 5
        feedback := "Error during evaluation: " ++ e ++
          "\n\nPlease try again or check your GROQ_API_KEY configuration."
        is_correct := "error"
        better_answer := ""
        detailed_analysis := ⟨[], ["Unable to evaluate - technical error occurred"]⟩ } ∧
    searchAgentSearch cfg (.error e) = ⟨[], "no_results", 0⟩ ∧
    extractSkillsFromText (.error e) txt st = ⟨[], [], []⟩ :=
  ⟨rfl, rfl, rfl, rfl⟩

theorem feasAt1_at_seven (rest : List Char) :
    feasAt1 ("feasibility: 7/10".data ++ rest) = some 7 := rfl

/-- C5 (amended): a text containing `FEASIBILITY: 7/10` always yields a match
of the first score pattern, and whenever the first match of that pattern
captures 7 — in particular when no earlier match precedes the occurrence —
`_parse_career_path` returns feasibility 7. -/
theorem c5_feasibility_seven_amended (t current target : String) (sk : Skills) :
    (hasSub "FEASIBILITY: 7/10".data t.data = true → ∃ k, feasSearch1 t = some k) ∧
    (feasSearch1 t = some 7 →
      (parseCareerPath t current target sk).feasibility_score = 7) := by
  constructor
  · intro h
    have h2 := hasSub_map pyLowerChar h
    have heq : "FEASIBILITY: 7/10".data.map pyLowerChar = "feasibility: 7/10".data := by decide
    rw [heq] at h2
    obtain ⟨pre, suf, hdec⟩ := hasSub_decomp h2
    have hs : (feasSearch1 t).isSome := by
      unfold feasSearch1 pyLower
      rw [hdec, List.append_assoc]
      exact scanFirst_append_isSome _ _ _ (by rw [feasAt1_at_seven]; rfl)
    exact Option.isSome_iff_exists.mp hs
  · intro h
    simp [parseCareerPath, h]

/-- C5 counterexample: a text containing `FEASIBILITY: 7/10` for which the
parser nevertheless returns 2, because `re.search` takes the earlier
`FEASIBILITY: 2/10` match. -/
theorem c5_counterexample :
    hasSub "FEASIBILITY: 7/10".data
      ("FEASIBILITY: 2/10 FEASIBILITY: 7/10" : String).data = true ∧
    (parseCareerPath "FEASIBILITY: 2/10 FEASIBILITY: 7/10" "Dev" "Lead"
      ⟨[], [], []⟩).feasibility_score = 2 ∧
    (parseCareerPath "FEASIBILITY: 2/10 FEASIBILITY: 7/10" "Dev" "Lead"
      ⟨[], [], []⟩).feasibility_score ≠ 7 := by
  refine ⟨by decide, by decide, by decide⟩

theorem c5_witness :
    hasSub "FEASIBILITY: 7/10".data ("FEASIBILITY: 7/10" : String).data = true ∧
    (∃ k, feasSearch1 "FEASIBILITY: 7/10" = some k) ∧
    feasSearch1 "FEASIBILITY: 7/10" = some 7 ∧
    (parseCareerPath "FEASIBILITY: 7/10" "Dev" "Lead" ⟨[], [], []⟩).feasibility_score = 7 :=
  ⟨by decide,
   (c5_feasibility_seven_amended "FEASIBILITY: 7/10" "Dev" "Lead" ⟨[], [], []⟩).1 (by decide),
   by decide,
   (c5_feasibility_seven_amended "FEASIBILITY: 7/10" "Dev" "Lead" ⟨[], [], []⟩).2 (by decide)⟩

/-- C6: when none of the three score patterns matches, `_parse_career_path`
derives the feasibility from the total skill count with the thresholds of the
source, and the result is one of 3, 4, 6, 7. -/
theorem c6_skill_count_fallback (t current target : String) (sk : Skills)
    (h1 : feasSearch1 t = none) (h2 : feasSearch2 t = none) (h3 : feasSearch3 t = none) :
    (parseCareerPath t current target sk).feasibility_score =
      (if totalSkills sk = 0 then 3 else if totalSkills sk < 3 then 4
       else if totalSkills sk < 6 then 6 else 7) ∧
    ((parseCareerPath t current target sk).feasibility_score = 3 ∨
     (parseCareerPath t current target sk).feasibility_score = 4 ∨
     (parseCareerPath t current target sk).feasibility_score = 6 ∨
     (parseCareerPath t current target sk).feasibility_score = 7) := by
  have hf : (parseCareerPath t current target sk).feasibility_score =
      min 10 (max 1 (skillCountFeasibility sk)) := by
    simp [parseCareerPath, h1, h2, h3]
  constructor
  · rw [hf]
    unfold skillCountFeasibility
    split_ifs <;> decide
  · rw [hf]
    unfold skillCountFeasibility
    split_ifs <;> decide

theorem c6_witness :
    (parseCareerPath "hello" "Dev" "Lead" ⟨[], [], []⟩).feasibility_score =
      (if totalSkills ⟨[], [], []⟩ = 0 then 3 else if totalSkills ⟨[], [], []⟩ < 3 then 4
       else if totalSkills ⟨[], [], []⟩ < 6 then 6 else 7) ∧
    ((parseCareerPath "hello" "Dev" "Lead" ⟨[], [], []⟩).feasibility_score = 3 ∨
     (parseCareerPath "hello" "Dev" "Lead" ⟨[], [], []⟩).feasibility_score = 4 ∨
     (parseCareerPath "hello" "Dev" "Lead" ⟨[], [], []⟩).feasibility_score = 6 ∨
     (parseCareerPath "hello" "Dev" "Lead" ⟨[], [], []⟩).feasibility_score = 7) :=
  c6_skill_count_fallback "hello" "Dev" "Lead" ⟨[], [], []⟩ (by decide) (by decide) (by decide)

/-- C2 counterexample: `PersonalizationAgent.audit_job` does not clamp the
parsed score — a reply `SCORE: 150` is returned as 150, outside [0, 100]. -/
theorem c2_counterexample :
    (auditJob true (.ok "SCORE: 150") "desc").score = 150 ∧
    ¬((auditJob true (.ok "SCORE: 150") "desc").score ≤ 100) := by
  refine ⟨by decide, by decide⟩

/-- C2 (amended): `_parse_career_path` clamps the feasibility score into
[1, 10] and `audit_resume` clamps its score into [0, 100] regardless of the
numbers in the text; `PersonalizationAgent.audit_job`, however, returns the
parsed `SCORE:` number unclamped (defaulting to 75 only when absent). -/
theorem c2_clamping_amended :
    (∀ (t current target : String) (sk : Skills),
      1 ≤ (parseCareerPath t current target sk).feasibility_score ∧
      (parseCareerPath t current target sk).feasibility_score ≤ 10) ∧
    (∀ r : String, 0 ≤ (auditResume r).score ∧ (auditResume r).score ≤ 100) ∧
    (∀ (resp : String) (n : Nat), scoreSearch resp = some n →
      (auditJobLLM resp).score = (n : Int)) := by
  refine ⟨?_, ?_, ?_⟩
  · intro t current target sk
    have h : (parseCareerPath t current target sk).feasibility_score =
        min 10 (max 1 (match feasSearch1 t with
          | some v => v
          | none => match feasSearch2 t with
            | some v => v
            | none => match feasSearch3 t with
              | some v => v
              | none => skillCountFeasibility sk)) := rfl
    rw [h]
    omega
  · intro r
    unfold auditResume
    dsimp only
    omega
  · intro resp n h
    simp [auditJobLLM, h]

theorem c2_witness :
    (1 ≤ (parseCareerPath "x" "a" "b" ⟨[], [], []⟩).feasibility_score ∧
      (parseCareerPath "x" "a" "b" ⟨[], [], []⟩).feasibility_score ≤ 10) ∧
    (0 ≤ (auditResume "ok").score ∧ (auditResume "ok").score ≤ 100) ∧
    (auditJobLLM "SCORE: 150").score = (150 : Int) :=
  ⟨c2_clamping_amended.1 "x" "a" "b" ⟨[], [], []⟩,
   c2_clamping_amended.2.1 "ok",
   c2_clamping_amended.2.2 "SCORE: 150" 150 (by decide)⟩

/-- A line (as split by `_parse_bridge_roles`) that starts none of the
recognised labels and is not the `---` separator. -/
def bridgeLineInert (rawLine : List Char) : Bool :=
  let line := pyStrip rawLine
  !(hasPref "ROLE:".data line) && !(hasPref "WHY:".data line) &&
    !(hasPref "SKILLS:".data line) && !(hasPref "TIMELINE:".data line) &&
    !(line == "---".data)

/-- A line (as handled by `_parse_networking_strategy`) that triggers no
section header and is not a bullet. -/
def netLineInert (rawLine : List Char) : Bool :=
  let line := pyStrip rawLine
  let low := pyLower line
  !(hasSub "target contact".data low) && !(hasSub "who to contact".data low) &&
    !(hasSub "event".data low) && !(hasSub "communit".data low) &&
    !(hasSub "template".data low) && !(hasSub "message".data low) &&
    !(hasPref "-".data line) && !(hasPref "•".data line)

theorem bridgeGo_inert : ∀ lines : List (List Char),
    (∀ l ∈ lines, bridgeLineInert l = true) →
    bridgeGo lines [] emptyBridgeRole = [] := by
  intro lines
  induction lines with
  | nil => intro _; rfl
  | cons l rest ih =>
    intro h
    have hl := h l (List.mem_cons_self _ _)
    simp only [bridgeLineInert, Bool.and_eq_true, Bool.not_eq_true'] at hl
    obtain ⟨⟨⟨⟨h1, h2⟩, h3⟩, h4⟩, h5⟩ := hl
    rw [bridgeGo]
    simp only [h1, h2, h3, h4, h5, Bool.false_eq_true, if_false, Bool.false_and]
    exact ih fun x hx => h x (List.mem_cons_of_mem _ hx)

theorem netGo_inert : ∀ lines : List (List Char),
    (∀ l ∈ lines, netLineInert l = true) →
    netGo lines none ⟨[], [], ""⟩ = ⟨[], [], ""⟩ := by
  intro lines
  induction lines with
  | nil => intro _; rfl
  | cons l rest ih =>
    intro h
    have hl := h l (List.mem_cons_self _ _)
    simp only [netLineInert, Bool.and_eq_true, Bool.not_eq_true'] at hl
    obtain ⟨⟨⟨⟨⟨⟨⟨h1, h2⟩, h3⟩, h4⟩, h5⟩, h6⟩, h7⟩, h8⟩ := hl
    rw [netGo]
    simp only [h1, h2, h3, h4, h5, h6, h7, h8, Bool.false_eq_true, if_false,
      Bool.or_self, Bool.false_or, Bool.or_false, Option.isSome_none, Bool.false_and,
      Bool.and_false]
    exact ih fun x hx => h x (List.mem_cons_of_mem _ hx)

/-- C3 counterexample: on a text with none of the recognised labels both
parsers return empty data, not a non-empty default record. -/
theorem c3_counterexample :
    parseBridgeRoles "hello" = [] ∧
    parseNetworkingStrategy "hello" = ⟨[], [], ""⟩ := by
  refine ⟨by decide, by decide⟩

/-- C3 (amended): given a text containing none of their recognised labels,
`_parse_bridge_roles` returns the empty list and `_parse_networking_strategy`
the record of empty lists and empty template; the hard-coded default records
are supplied only by the exception handlers of `recommend_bridge_roles` and
`generate_networking_strategy`. -/
theorem c3_parsers_empty_amended :
    (∀ t : String, (∀ l ∈ pyLines t.data, bridgeLineInert l = true) →
      parseBridgeRoles t = []) ∧
    (∀ t : String, (∀ l ∈ pyLines t.data, netLineInert l = true) →
      parseNetworkingStrategy t = ⟨[], [], ""⟩) ∧
    (∀ e current : String, recommendBridgeRoles (.error e) current =
      [⟨some ("Senior " ++ current), some "Deepens expertise before transition",
        some ["Advanced technical skills", "Leadership"], some 12⟩]) ∧
    (∀ e : String, generateNetworkingStrategy (.error e) =
      ⟨["Hiring Managers", "Team Leads", "Recruiters"],
       ["LinkedIn Groups", "Industry Conferences"],
       "Professional networking message template"⟩) := by
  refine ⟨?_, ?_, fun e current => rfl, fun e => rfl⟩
  · intro t h
    unfold parseBridgeRoles
    rw [bridgeGo_inert _ h]
    rfl
  · intro t h
    unfold parseNetworkingStrategy
    exact netGo_inert _ h

theorem c3_witness :
    parseBridgeRoles "hello" = [] ∧
    parseNetworkingStrategy "hello" = ⟨[], [], ""⟩ ∧
    recommendBridgeRoles (.error "boom") "Dev" =
      [⟨some "Senior Dev", some "Deepens expertise before transition",
        some ["Advanced technical skills", "Leadership"], some 12⟩] ∧
    generateNetworkingStrategy (.error "boom") =
      ⟨["Hiring Managers", "Team Leads", "Recruiters"],
       ["LinkedIn Groups", "Industry Conferences"],
       "Professional networking message template"⟩ :=
  ⟨c3_parsers_empty_amended.1 "hello" (by decide),
   c3_parsers_empty_amended.2.1 "hello" (by decide),
   c3_parsers_empty_amended.2.2.1 "boom" "Dev",
   c3_parsers_empty_amended.2.2.2 "boom"⟩

/-- C4 counterexample: the resume `"1999"` is under 50 characters, but the age
pattern `\b(19|20)\d{2}\b` also fires, so the returned score is 25, not 30. -/
theorem c4_counterexample :
    (pyStrip ("1999" : String).data).length < 50 ∧
    (auditResume "1999").score = 25 ∧
    (auditResume "1999").score ≠ 30 := by
  refine ⟨by decide, by decide, by decide⟩

/-- C4 (amended): a resume whose stripped length is under 50 characters has its
score forced to 30, and the remaining heuristic rules still apply afterwards;
when none of them fires (some keyword present or length at most 10, fewer than
6 keywords, no age patterns, at most 3 masculine- and feminine-coded words, no
elite terms, no inclusive terms) the returned score is exactly 30. -/
theorem c4_short_resume_amended (r : String)
    (hshort : (pyStrip r.data).length < 50)
    (hkw : ¬(countSubs resumeKeywords (pyStrip (pyLower r.data)) = 0 ∧
      (pyStrip r.data).length > 10))
    (hkw6 : countSubs resumeKeywords (pyStrip (pyLower r.data)) < 6)
    (ha1 : agePat1 (pyLower r.data) = false)
    (ha2 : agePat2 (pyLower r.data) = false)
    (ha3 : agePat3 (pyLower r.data) = false)
    (hmasc : countSubs masculineCoded (pyStrip (pyLower r.data)) ≤ 3)
    (hfem : countSubs feminineCoded (pyStrip (pyLower r.data)) ≤ 3)
    (helite : elitePat (pyLower r.data) = false)
    (hinc : countSubs inclusiveTerms (pyStrip (pyLower r.data)) = 0) :
    (auditResume r).score = 30 := by
  have hlowq : ¬(countSubs resumeKeywords (pyStrip (pyLower r.data)) < 3 ∧
      (pyStrip r.data).length > 50) := by omega
  have h6 : ¬(6 ≤ countSubs resumeKeywords (pyStrip (pyLower r.data))) := by omega
  have hm : ¬(3 < countSubs masculineCoded (pyStrip (pyLower r.data))) := by omega
  have hf : ¬(3 < countSubs feminineCoded (pyStrip (pyLower r.data))) := by omega
  have hi : ¬(0 < countSubs inclusiveTerms (pyStrip (pyLower r.data))) := by omega
  unfold auditResume
  simp only [hshort, hkw, hlowq, h6, ha1, ha2, ha3, hm, hf, helite, hi,
    if_true, if_false, Bool.false_eq_true, ite_true, ite_false]
  norm_num

theorem c4_witness :
    (pyStrip ("work team" : String).data).length < 50 ∧
    (auditResume "work team").score = 30 :=
  ⟨by decide,
   c4_short_resume_amended "work team" (by decide) (by decide) (by decide) (by decide)
     (by decide) (by decide) (by decide) (by decide) (by decide) (by decide)⟩

theorem ifEmpty_default_ne (l : List String) (d : String) :
    (if l.isEmpty then [d] else l) ≠ [] := by
  split_ifs with h
  · simp
  · intro heq
    rw [heq] at h
    exact h rfl

theorem auditJobHeuristic_flags_ne (t : String) : (auditJobHeuristic t).flags ≠ [] := by
  unfold auditJobHeuristic
  dsimp only
  exact ifEmpty_default_ne _ _

/-- C7 counterexample: with `ninja` and six further bias words the raw score 19
clamps to the floor 45, and so does the 27 of the same text with `ninja`
removed — the returned score is not reduced. -/
theorem c7_counterexample :
    hasSub "ninja".data
      ("ninja rockstar guru dominant aggressive young energetic" : String).data = true ∧
    replAll "ninja".data []
        ("ninja rockstar guru dominant aggressive young energetic" : String).data =
      (" rockstar guru dominant aggressive young energetic" : String).data ∧
    (auditJobHeuristic "ninja rockstar guru dominant aggressive young energetic").score =
      (auditJobHeuristic " rockstar guru dominant aggressive young energetic").score := by
  refine ⟨by decide, by decide, by decide⟩

/-- C7 (amended): a job text containing `ninja` always yields a non-empty flag
list from both heuristic audits, `ninja` is among the bias words each audit
deducts for (8 points in `audit_job`, 5 in `audit_job_description`, before the
clamps, which can level the returned scores), and the ethics audit reports the
`Gender-Coded Language` issue with the `Ninja` flag. -/
theorem c7_ninja_amended (t : String) (h : hasSub "ninja".data t.data = true) :
    (auditJobHeuristic t).flags ≠ [] ∧
    "ninja" ∈ biasWords.filter (fun w => hasSub w.data (pyLower t.data)) ∧
    (auditJobDescription t).flags ≠ [] ∧
    "Gender-Coded Language" ∈ (auditJobDescription t).issues ∧
    "'Ninja' is masculine-coded - use neutral alternatives" ∈ (auditJobDescription t).flags := by
  have hlow : hasSub "ninja".data (pyLower t.data) = true := by
    have h2 := hasSub_map pyLowerChar h
    have heq : "ninja".data.map pyLowerChar = "ninja".data := by decide
    rw [heq] at h2
    exact h2
  have hshape : "ninja".data = 'n' :: (['i', 'n', 'j'] ++ ['a']) := rfl
  have hstrip : hasSub "ninja".data (pyStrip (pyLower t.data)) = true := by
    rw [hshape] at hlow ⊢
    exact hasSub_pyStrip (by decide) (by decide) hlow
  have hpair : ("ninja", "'Ninja' is masculine-coded - use neutral alternatives") ∈
      ethicsGenderedTerms.filter (fun p => hasSub p.1.data (pyStrip (pyLower t.data))) :=
    List.mem_filter.mpr ⟨by simp [ethicsGenderedTerms], hstrip⟩
  have hflagmem : "'Ninja' is masculine-coded - use neutral alternatives" ∈
      (auditJobDescription t).flags := by
    have hM := List.mem_map_of_mem (fun p : String × String => p.2) hpair
    unfold auditJobDescription
    dsimp only
    simp only [List.mem_append]
    tauto
  refine ⟨auditJobHeuristic_flags_ne t, ?_, List.ne_nil_of_mem hflagmem, ?_, hflagmem⟩
  · exact List.mem_filter.mpr ⟨by simp [biasWords], hlow⟩
  · have hI := List.mem_map_of_mem (fun _ : String × String => "Gender-Coded Language") hpair
    unfold auditJobDescription
    dsimp only
    apply mem_dedupFirst
    simp only [List.mem_append]
    tauto

theorem c7_witness :
    hasSub "ninja".data ("We need a ninja developer" : String).data = true ∧
    ((auditJobHeuristic "We need a ninja developer").flags ≠ [] ∧
     "ninja" ∈ biasWords.filter
       (fun w => hasSub w.data (pyLower ("We need a ninja developer" : String).data)) ∧
     (auditJobDescription "We need a ninja developer").flags ≠ [] ∧
     "Gender-Coded Language" ∈ (auditJobDescription "We need a ninja developer").issues ∧
     "'Ninja' is masculine-coded - use neutral alternatives" ∈
       (auditJobDescription "We need a ninja developer").flags) :=
  ⟨by decide, c7_ninja_amended "We need a ninja developer" (by decide)⟩

theorem matchGap_cases (rl jl : List String) (s : String) (hs : s ∈ jl) :
    (s ∈ gapsIn rl jl ↔ ¬∃ r ∈ rl, skillMatchOne s r = true) ∧
    (s ∈ matchedIn rl jl ∨ s ∈ gapsIn rl jl) ∧
    ¬(s ∈ matchedIn rl jl ∧ s ∈ gapsIn rl jl) := by
  have hm : s ∈ matchedIn rl jl ↔ ∃ r ∈ rl, skillMatchOne s r = true := by
    simp [matchedIn, List.mem_filter, hs]
  have hg : s ∈ gapsIn rl jl ↔ ∀ r ∈ rl, ¬(skillMatchOne s r = true) := by
    simp [gapsIn, List.mem_filter, hs]
  refine ⟨?_, ?_, ?_⟩
  · rw [hg]
    constructor
    · rintro hall ⟨r, hr, hP⟩
      exact hall r hr hP
    · intro hne r hr hP
      exact hne ⟨r, hr, hP⟩
  · by_cases hex : ∃ r ∈ rl, skillMatchOne s r = true
    · exact Or.inl (hm.mpr hex)
    · refine Or.inr (hg.mpr ?_)
      intro r hr hP
      exact hex ⟨r, hr, hP⟩
  · rintro ⟨h1, h2⟩
    obtain ⟨r, hr, hP⟩ := hm.mp h1
    exact (hg.mp h2) r hr hP

theorem gaps_critical_eq (rs js : Skills) :
    (analyzeSkillGaps rs js).gaps.critical = gapsIn rs.technical js.technical := rfl

theorem gaps_moderate_eq (rs js : Skills) :
    (analyzeSkillGaps rs js).gaps.moderate = gapsIn rs.domain js.domain := rfl

theorem gaps_minor_eq (rs js : Skills) :
    (analyzeSkillGaps rs js).gaps.minor = gapsIn rs.soft js.soft := rfl

theorem matched_technical_eq (rs js : Skills) :
    (analyzeSkillGaps rs js).matched.technical = matchedIn rs.technical js.technical := rfl

theorem matched_soft_eq (rs js : Skills) :
    (analyzeSkillGaps rs js).matched.soft = matchedIn rs.soft js.soft := rfl

theorem matched_domain_eq (rs js : Skills) :
    (analyzeSkillGaps rs js).matched.domain = matchedIn rs.domain js.domain := rfl

/-- C8: a job-required skill of a category lands in the gaps record exactly
when no resume skill of the same category matches it (substring either way or
50%-shared-words similarity); severities are fixed per category (technical →
critical, domain → moderate, soft → minor) and every job skill lands in
exactly one of matched and gaps. -/
theorem c8_gap_partition (rs js : Skills) (s : String) :
    (s ∈ js.technical →
      ((s ∈ (analyzeSkillGaps rs js).gaps.critical ↔
          ¬∃ r ∈ rs.technical, skillMatchOne s r = true) ∧
       (s ∈ (analyzeSkillGaps rs js).matched.technical ∨
          s ∈ (analyzeSkillGaps rs js).gaps.critical) ∧
       ¬(s ∈ (analyzeSkillGaps rs js).matched.technical ∧
          s ∈ (analyzeSkillGaps rs js).gaps.critical))) ∧
    (s ∈ js.domain →
      ((s ∈ (analyzeSkillGaps rs js).gaps.moderate ↔
          ¬∃ r ∈ rs.domain, skillMatchOne s r = true) ∧
       (s ∈ (analyzeSkillGaps rs js).matched.domain ∨
          s ∈ (analyzeSkillGaps rs js).gaps.moderate) ∧
       ¬(s ∈ (analyzeSkillGaps rs js).matched.domain ∧
          s ∈ (analyzeSkillGaps rs js).gaps.moderate))) ∧
    (s ∈ js.soft →
      ((s ∈ (analyzeSkillGaps rs js).gaps.minor ↔
          ¬∃ r ∈ rs.soft, skillMatchOne s r = true) ∧
       (s ∈ (analyzeSkillGaps rs js).matched.soft ∨
          s ∈ (analyzeSkillGaps rs js).gaps.minor) ∧
       ¬(s ∈ (analyzeSkillGaps rs js).matched.soft ∧
          s ∈ (analyzeSkillGaps rs js).gaps.minor))) := by
  refine ⟨fun hs => ?_, fun hs => ?_, fun hs => ?_⟩
  · rw [gaps_critical_eq, matched_technical_eq]
    exact matchGap_cases rs.technical js.technical s hs
  · rw [gaps_moderate_eq, matched_domain_eq]
    exact matchGap_cases rs.domain js.domain s hs
  · rw [gaps_minor_eq, matched_soft_eq]
    exact matchGap_cases rs.soft js.soft s hs

theorem c8_witness :
    "java" ∈ (⟨["java"], [], []⟩ : Skills).technical ∧
    ((("java" : String) ∈ (analyzeSkillGaps ⟨["python"], [], []⟩ ⟨["java"], [], []⟩).gaps.critical ↔
        ¬∃ r ∈ (⟨["python"], [], []⟩ : Skills).technical, skillMatchOne "java" r = true) ∧
     (("java" : String) ∈ (analyzeSkillGaps ⟨["python"], [], []⟩ ⟨["java"], [], []⟩).matched.technical ∨
        ("java" : String) ∈ (analyzeSkillGaps ⟨["python"], [], []⟩ ⟨["java"], [], []⟩).gaps.critical) ∧
     ¬(("java" : String) ∈ (analyzeSkillGaps ⟨["python"], [], []⟩ ⟨["java"], [], []⟩).matched.technical ∧
        ("java" : String) ∈ (analyzeSkillGaps ⟨["python"], [], []⟩ ⟨["java"], [], []⟩).gaps.critical)) :=
  ⟨by simp, (c8_gap_partition ⟨["python"], [], []⟩ ⟨["java"], [], []⟩ "java").1 (by simp)⟩

theorem pyRound1_bounds {q : ℚ} (h0 : 0 ≤ q) (h1 : q ≤ 100) :
    0 ≤ pyRound1 q ∧ pyRound1 q ≤ 100 := by
  unfold pyRound1
  constructor
  · apply div_nonneg _ (by norm_num)
    exact_mod_cast Int.floor_nonneg.mpr (by linarith)
  · have h2 : ⌊q * 10 + 1 / 2⌋ < 1001 := by
      apply Int.floor_lt.mpr
      push_cast
      linarith
    rw [div_le_iff₀ (by norm_num : (0 : ℚ) < 10)]
    have h3 : ((⌊q * 10 + 1 / 2⌋ : Int) : ℚ) ≤ 1000 := by exact_mod_cast Int.lt_add_one_iff.mp h2
    linarith

/-- C9: the match percentage is a well-defined rational in [0, 100]; the
division is guarded by `total_required > 0`, and an empty job-skill
dictionary yields 0. -/
theorem c9_match_percentage (rs js : Skills) :
    0 ≤ (analyzeSkillGaps rs js).match_percentage ∧
    (analyzeSkillGaps rs js).match_percentage ≤ 100 ∧
    (js.technical = [] ∧ js.soft = [] ∧ js.domain = [] →
      (analyzeSkillGaps rs js).match_percentage = 0) := by
  have hproj : (analyzeSkillGaps rs js).match_percentage =
      pyRound1 (if 0 < js.technical.length + js.soft.length + js.domain.length then
        (((matchedIn rs.technical js.technical).length +
          (matchedIn rs.soft js.soft).length +
          (matchedIn rs.domain js.domain).length : Nat) : ℚ) /
        ((js.technical.length + js.soft.length + js.domain.length : Nat) : ℚ) * 100
      else 0) := rfl
  have hround0 : pyRound1 0 = 0 := by
    unfold pyRound1
    rw [show (0 : ℚ) * 10 + 1 / 2 = 1 / 2 by norm_num]
    rw [show ⌊(1 / 2 : ℚ)⌋ = 0 from Int.floor_eq_zero_iff.mpr (by constructor <;> norm_num)]
    norm_num
  have h1 : (matchedIn rs.technical js.technical).length ≤ js.technical.length :=
    List.length_filter_le _ _
  have h2 : (matchedIn rs.soft js.soft).length ≤ js.soft.length :=
    List.length_filter_le _ _
  have h3 : (matchedIn rs.domain js.domain).length ≤ js.domain.length :=
    List.length_filter_le _ _
  have hbounds : 0 ≤ (analyzeSkillGaps rs js).match_percentage ∧
      (analyzeSkillGaps rs js).match_percentage ≤ 100 := by
    rw [hproj]
    split_ifs with htr
    · have htrq : (0 : ℚ) < ((js.technical.length + js.soft.length + js.domain.length : Nat) : ℚ) := by
        exact_mod_cast htr
      have htm : (((matchedIn rs.technical js.technical).length +
          (matchedIn rs.soft js.soft).length +
          (matchedIn rs.domain js.domain).length : Nat) : ℚ) ≤
          ((js.technical.length + js.soft.length + js.domain.length : Nat) : ℚ) := by
        exact_mod_cast Nat.add_le_add (Nat.add_le_add h1 h2) h3
      apply pyRound1_bounds
      · positivity
      · have hdiv : (((matchedIn rs.technical js.technical).length +
            (matchedIn rs.soft js.soft).length +
            (matchedIn rs.domain js.domain).length : Nat) : ℚ) /
            ((js.technical.length + js.soft.length + js.domain.length : Nat) : ℚ) ≤ 1 :=
          (div_le_one htrq).mpr htm
        linarith
    · rw [hround0]
      norm_num
  refine ⟨hbounds.1, hbounds.2, ?_⟩
  rintro ⟨e1, e2, e3⟩
  rw [hproj, e1, e2, e3]
  simpa using hround0

theorem c9_witness :
    0 ≤ (analyzeSkillGaps ⟨[], [], []⟩ ⟨[], [], []⟩).match_percentage ∧
    (analyzeSkillGaps ⟨[], [], []⟩ ⟨[], [], []⟩).match_percentage ≤ 100 ∧
    (analyzeSkillGaps ⟨[], [], []⟩ ⟨[], [], []⟩).match_percentage = 0 :=
  ⟨(c9_match_percentage ⟨[], [], []⟩ ⟨[], [], []⟩).1,
   (c9_match_percentage ⟨[], [], []⟩ ⟨[], [], []⟩).2.1,
   (c9_match_percentage ⟨[], [], []⟩ ⟨[], [], []⟩).2.2 ⟨rfl, rfl, rfl⟩⟩

theorem searchLoop_extends (lim : Int) : ∀ (rs : List ProviderResult)
    (seen : List String) (acc : List JobResult),
    ∃ ext, searchLoop lim rs seen acc = acc ++ ext := by
  intro rs
  induction rs with
  | nil => intro seen acc; exact ⟨[], by simp [searchLoop]⟩
  | cons r rest ih =>
    intro seen acc
    by_cases h1 : seen.contains r.url = true
    · obtain ⟨ext, hext⟩ := ih seen acc
      refine ⟨ext, ?_⟩
      simp only [searchLoop]
      rw [if_pos h1]
      exact hext
    · by_cases h2 : isJobPosting r.url r.title r.text = true
      · by_cases h3 : lim ≤ (((acc ++ [toJobResult r]).length : Nat) : Int)
        · refine ⟨[toJobResult r], ?_⟩
          simp only [searchLoop]
          rw [if_neg h1, if_pos h2, if_pos h3]
        · obtain ⟨ext, hext⟩ := ih (r.url :: seen) (acc ++ [toJobResult r])
          refine ⟨[toJobResult r] ++ ext, ?_⟩
          simp only [searchLoop]
          rw [if_neg h1, if_pos h2, if_neg h3, hext, List.append_assoc]
      · obtain ⟨ext, hext⟩ := ih seen acc
        refine ⟨ext, ?_⟩
        simp only [searchLoop]
        rw [if_neg h1, if_neg h2]
        exact hext

theorem searchLoop_length (lim : Int) : ∀ (rs : List ProviderResult)
    (seen : List String) (acc : List JobResult),
    ((acc.length : Nat) : Int) < lim →
    (((searchLoop lim rs seen acc).length : Nat) : Int) ≤ lim := by
  intro rs
  induction rs with
  | nil =>
    intro seen acc h
    simp only [searchLoop]
    omega
  | cons r rest ih =>
    intro seen acc h
    by_cases h1 : seen.contains r.url = true
    · simp only [searchLoop]
      rw [if_pos h1]
      exact ih seen acc h
    · by_cases h2 : isJobPosting r.url r.title r.text = true
      · have hlen : ((acc ++ [toJobResult r]).length : Int) = (acc.length : Int) + 1 := by
          simp
        by_cases h3 : lim ≤ (((acc ++ [toJobResult r]).length : Nat) : Int)
        · simp only [searchLoop]
          rw [if_neg h1, if_pos h2, if_pos h3]
          omega
        · simp only [searchLoop]
          rw [if_neg h1, if_pos h2, if_neg h3]
          exact ih (r.url :: seen) (acc ++ [toJobResult r]) (by omega)
      · simp only [searchLoop]
        rw [if_neg h1, if_neg h2]
        exact ih seen acc h

theorem searchLoop_nodup (lim : Int) : ∀ (rs : List ProviderResult)
    (seen : List String) (acc : List JobResult),
    (acc.map (fun j => j.url)).Nodup →
    (∀ u ∈ acc.map (fun j => j.url), seen.contains u = true) →
    ((searchLoop lim rs seen acc).map (fun j => j.url)).Nodup := by
  intro rs
  induction rs with
  | nil => intro seen acc hnd _; simpa [searchLoop] using hnd
  | cons r rest ih =>
    intro seen acc hnd hsub
    by_cases h1 : seen.contains r.url = true
    · simp only [searchLoop]
      rw [if_pos h1]
      exact ih seen acc hnd hsub
    · have hnotin : r.url ∉ acc.map (fun j => j.url) := by
        intro hmem
        exact h1 (hsub _ hmem)
      have hnd' : ((acc ++ [toJobResult r]).map (fun j => j.url)).Nodup := by
        rw [List.map_append]
        simp only [List.map_cons, List.map_nil]
        rw [List.nodup_append]
        exact ⟨hnd, List.nodup_singleton _, by simpa [List.Disjoint] using hnotin⟩
      by_cases h2 : isJobPosting r.url r.title r.text = true
      · by_cases h3 : lim ≤ (((acc ++ [toJobResult r]).length : Nat) : Int)
        · simp only [searchLoop]
          rw [if_neg h1, if_pos h2, if_pos h3]
          exact hnd'
        · simp only [searchLoop]
          rw [if_neg h1, if_pos h2, if_neg h3]
          apply ih (r.url :: seen) (acc ++ [toJobResult r]) hnd'
          intro u hu
          rw [List.map_append] at hu
          simp only [List.map_cons, List.map_nil] at hu
          rw [List.contains_cons]
          rcases List.mem_append.mp hu with hu1 | hu2
          · rw [Bool.or_eq_true]
            exact Or.inr (hsub _ hu1)
          · have hu3 : u = r.url := by simpa [toJobResult] using hu2
            rw [hu3]
            simp
      · simp only [searchLoop]
        rw [if_neg h1, if_neg h2]
        exact ih seen acc hnd hsub

theorem searchLoop_nil_iff (lim : Int) : ∀ rs : List ProviderResult,
    (searchLoop lim rs [] [] = [] ↔
      ∀ r ∈ rs, isJobPosting r.url r.title r.text = false) := by
  intro rs
  induction rs with
  | nil => simp [searchLoop]
  | cons r rest ih =>
    have hc : ¬(([] : List String).contains r.url = true) := by simp
    constructor
    · intro h
      by_cases h2 : isJobPosting r.url r.title r.text = true
      · exfalso
        simp only [searchLoop] at h
        rw [if_neg hc, if_pos h2] at h
        by_cases h3 : lim ≤ ((([] ++ [toJobResult r]).length : Nat) : Int)
        · rw [if_pos h3] at h
          simp at h
        · rw [if_neg h3] at h
          obtain ⟨ext, hext⟩ := searchLoop_extends lim rest [r.url] ([] ++ [toJobResult r])
          rw [hext] at h
          simp at h
      · intro r' hr'
        rcases List.mem_cons.mp hr' with rfl | hr2
        · exact Bool.not_eq_true _ ▸ (by revert h2; cases isJobPosting r'.url r'.title r'.text <;> simp)
        · apply (ih.mp ?_) r' hr2
          simp only [searchLoop] at h
          rw [if_neg hc, if_neg h2] at h
          exact h
    · intro hall
      have h2 : isJobPosting r.url r.title r.text = false := hall r (List.mem_cons_self _ _)
      simp only [searchLoop]
      rw [if_neg hc, if_neg (by simp [h2])]
      exact ih.mpr fun x hx => hall x (List.mem_cons_of_mem _ hx)

/-- C10 (amended): for every configuration and provider result list, the
returned `raw_results` have pairwise-distinct URLs and `status` is `"success"`
exactly when some provider result passes the job-posting filter; the length
bound `2 * num_jobs` holds whenever `num_jobs ≥ 1` (with `num_jobs ≤ 0` the
break fires only after the first append, so one result can still be kept). -/
theorem c10_search_invariants_amended (cfg : JobSearchConfig) (rs : List ProviderResult) :
    ((searchAgentSearch cfg (.ok rs)).raw_results.map (fun j => j.url)).Nodup ∧
    (1 ≤ cfg.num_jobs →
      (((searchAgentSearch cfg (.ok rs)).raw_results.length : Nat) : Int) ≤ 2 * cfg.num_jobs) ∧
    ((searchAgentSearch cfg (.ok rs)).status = "success" ↔
      ∃ r ∈ rs, isJobPosting r.url r.title r.text = true) := by
  have hres : (searchAgentSearch cfg (.ok rs)).raw_results =
      searchLoop (cfg.num_jobs * 2) rs [] [] := rfl
  have hstat : (searchAgentSearch cfg (.ok rs)).status =
      (if (searchLoop (cfg.num_jobs * 2) rs [] []).isEmpty then "no_results" else "success") :=
    rfl
  refine ⟨?_, ?_, ?_⟩
  · rw [hres]
    exact searchLoop_nodup _ rs [] [] (by simp) (by simp)
  · intro hn
    rw [hres]
    have hlen := searchLoop_length (cfg.num_jobs * 2) rs [] [] (by simp; omega)
    omega
  · rw [hstat]
    by_cases he : searchLoop (cfg.num_jobs * 2) rs [] [] = []
    · have hall := (searchLoop_nil_iff _ rs).mp he
      rw [he]
      simp only [List.isEmpty_nil, if_true]
      constructor
      · intro hcontra
        exact absurd hcontra (by decide)
      · rintro ⟨r, hr, hP⟩
        rw [hall r hr] at hP
        exact absurd hP (by decide)
    · have hne : (searchLoop (cfg.num_jobs * 2) rs [] []).isEmpty = false := by
        cases hcase : searchLoop (cfg.num_jobs * 2) rs [] [] with
        | nil => exact absurd hcase he
        | cons a tl => rfl
      rw [hne]
      simp only [Bool.false_eq_true, if_false]
      constructor
      · intro _
        by_contra hno
        apply he
        apply (searchLoop_nil_iff _ rs).mpr
        intro r hr
        cases hP : isJobPosting r.url r.title r.text with
        | false => rfl
        | true => exact absurd ⟨r, hr, hP⟩ hno
      · intro _
        trivial

/-- C10 counterexample: with `num_jobs = 0` the break `len >= num_jobs * 2`
fires only after the first append, so one result is returned although the
claimed bound `2 * num_jobs` is 0. -/
theorem c10_counterexample :
    (searchAgentSearch ⟨"x", none, none, 0⟩
        (.ok [⟨"https://a.com/job/1", "Engineer role", "apply now", ""⟩])).raw_results.length
      = 1 ∧
    ¬((((searchAgentSearch ⟨"x", none, none, 0⟩
        (.ok [⟨"https://a.com/job/1", "Engineer role", "apply now", ""⟩])).raw_results.length :
          Nat) : Int) ≤ 2 * (0 : Int)) := by
  refine ⟨by decide, by decide⟩

theorem c10_witness :
    ((searchAgentSearch ⟨"x", none, none, 5⟩ (.ok [])).raw_results.map
      (fun j => j.url)).Nodup ∧
    (((searchAgentSearch ⟨"x", none, none, 5⟩ (.ok [])).raw_results.length : Nat) : Int) ≤
      2 * (5 : Int) ∧
    ¬((searchAgentSearch ⟨"x", none, none, 5⟩ (.ok [])).status = "success") :=
  ⟨(c10_search_invariants_amended ⟨"x", none, none, 5⟩ []).1,
   (c10_search_invariants_amended ⟨"x", none, none, 5⟩ []).2.1 (by norm_num),
   fun hs => by
     obtain ⟨r, hr, _⟩ := ((c10_search_invariants_amended ⟨"x", none, none, 5⟩ []).2.2).mp hs
     exact absurd hr (List.not_mem_nil r)⟩
